import Mathlib

set_option autoImplicit false

/-!
Shallow embedding of the colloid boundary-link construction code
(`build.c`): the occupancy map rebuild, the link builder (full rebuild
and reset), the wall link builder, the transition handler for
newly-covered and newly-exposed sites, and the moment accumulator.

Real numbers (C `double`) are modelled by `ℚ`; lattice coordinates and
flat site indices by `ℤ`; the mutable per-site arrays by total maps out
of `ℤ`.  The discrete velocity set (`NVEL`, `cv`, `wv` from the lattice
model header, an external collaborator) is a parameter `LBModel`.
-/

/-- Three-component real vector (C struct `FVector`, components `double`). -/
structure FVector where
  x : ℚ
  y : ℚ
  z : ℚ
deriving DecidableEq, Repr

/-- Three-component integer vector (C struct `IVector`). -/
structure IVector where
  x : ℤ
  y : ℤ
  z : ℤ
deriving DecidableEq, Repr

/-- Modelled from the spec: the zero vector utility (`UTIL_fvector_zero`,
from the utilities collaborator outside `src/`). -/
def UTIL_fvector_zero : FVector := ⟨0, 0, 0⟩

/-- Modelled from the spec: componentwise vector addition
(`UTIL_fvector_add`, utilities collaborator). -/
def UTIL_fvector_add (a b : FVector) : FVector :=
  ⟨a.x + b.x, a.y + b.y, a.z + b.z⟩

/-- Modelled from the spec: Euclidean dot product (`UTIL_dot_product`,
utilities collaborator). -/
def UTIL_dot_product (a b : FVector) : ℚ :=
  a.x * b.x + a.y * b.y + a.z * b.z

/-- Modelled from the spec: right-handed cross product
(`UTIL_cross_product`, utilities collaborator). -/
def UTIL_cross_product (a b : FVector) : FVector :=
  ⟨a.y * b.z - a.z * b.y, a.z * b.x - a.x * b.z, a.x * b.y - a.y * b.x⟩

/-- Scalar multiple of a vector (used to express weighted sums). -/
def fvecSmul (q : ℚ) (a : FVector) : FVector := ⟨q * a.x, q * a.y, q * a.z⟩

/-- Site classification from `site_map.h` (external store): fluid,
static solid, colloid interior, or static wall boundary. -/
inductive SiteStatus where
  | FLUID
  | SOLID
  | COLLOID
  | BOUNDARY
deriving DecidableEq, Repr

/-- Boundary-link classification (`LINK_UNUSED` / `LINK_FLUID` /
`LINK_COLLOID` / `LINK_BOUNDARY` in `build.c`). -/
inductive LinkStatus where
  | UNUSED
  | FLUID
  | COLLOID
  | BOUNDARY
deriving DecidableEq, Repr

/-- The discrete velocity model (`NVEL`, `cv`, `wv` from `model.h`,
an external collaborator): number of directions, direction vectors and
quadrature weights, indexed by `p : ℕ`. -/
structure LBModel where
  nvel : ℕ
  cv : ℕ → IVector
  wv : ℕ → ℚ

/-- Direction vector `cv[p]` as a real vector. -/
def cvF (m : LBModel) (p : ℕ) : FVector :=
  ⟨((m.cv p).x : ℚ), ((m.cv p).y : ℚ), ((m.cv p).z : ℚ)⟩

/-- The list of nonzero lattice directions, `p = 1 .. NVEL-1`
(every direction loop in `build.c` is `for (p = 1; p < NVEL; p++)`). -/
def velDirs (m : LBModel) : List ℕ := (List.range m.nvel).drop 1

/-- Local domain extents `N[3]` and halo width `nhalo_`. -/
structure Domain where
  nx : ℤ
  ny : ℤ
  nz : ℤ
  nhalo : ℤ
deriving DecidableEq, Repr

/-- The static per-process configuration: domain extents, periodic box
lengths and flags, the subdomain offset, the velocity model, reference
densities, and the order-parameter configuration flags. -/
structure Env where
  dom : Domain
  lenX : ℚ
  lenY : ℚ
  lenZ : ℚ
  perX : Bool
  perY : Bool
  perZ : Bool
  offset : IVector
  model : LBModel
  rho0 : ℚ
  phi0 : ℚ
  phiFd : Bool
  nop : ℕ
  boundariesPresent : Bool

/-- A colloidal particle record (the fields of C `Colloid` touched by
`build.c`): identity, centre, input radius `a0`, velocity, angular
velocity, the moment accumulators `sumw`/`cbar`/`rxcbar`, the
conservation accumulators `deltam`/`deltaphi`/`f0`/`t0`, and the
rebuild flag. -/
structure Colloid where
  id : ℕ
  r : FVector
  a0 : ℚ
  v : FVector
  omega : FVector
  sumw : ℚ
  cbar : FVector
  rxcbar : FVector
  deltam : ℚ
  deltaphi : ℚ
  f0 : FVector
  t0 : FVector
  rebuild : Bool
deriving DecidableEq, Repr

/-- The mutable per-site and per-particle state: site-status store
(`site_map`), the two occupancy snapshots (`coll_map`, `coll_old`,
storing the owning particle's identifier), the distribution store
(site, velocity, distribution id), the finite-difference order
parameter store, and the particle registry. -/
structure Store where
  status : ℤ → SiteStatus
  collMap : ℤ → Option ℕ
  collOld : ℤ → Option ℕ
  f : ℤ → ℕ → ℕ → ℚ
  phiOp : ℤ → ℕ → ℚ
  colloids : ℕ → Colloid

/-- Source `site_map_set_status` as a functional update of the status store. -/
def Store.setStatus (st : Store) (n : ℤ) (v : SiteStatus) : Store :=
  { st with status := fun m => if m = n then v else st.status m }

/-- Source `distribution_f_set` as a functional update of the distribution store. -/
def Store.setF (st : Store) (n : ℤ) (p nd : ℕ) (q : ℚ) : Store :=
  { st with f := fun m p2 nd2 => if m = n ∧ p2 = p ∧ nd2 = nd then q else st.f m p2 nd2 }

/-- Write an owner into the current occupancy snapshot
(`coll_map[index] = p_colloid`). -/
def Store.setCollMap (st : Store) (n : ℤ) (o : Option ℕ) : Store :=
  { st with collMap := fun m => if m = n then o else st.collMap m }

/-- Replace one particle record in the registry (mutation through the
C `Colloid` pointer). -/
def Store.setColloid (st : Store) (cid : ℕ) (c : Colloid) : Store :=
  { st with colloids := fun m => if m = cid then c else st.colloids m }

/-- Source `phi_op_set_phi_site` as a functional update. -/
def Store.setPhiOp (st : Store) (n : ℤ) (op : ℕ) (q : ℚ) : Store :=
  { st with phiOp := fun m op2 => if m = n ∧ op2 = op then q else st.phiOp m op2 }

/-- Source `COLL_fcoords_from_ijk`: physical coordinates of lattice site
`(i,j,k)` (the convention `i = 1 ↦ x = 1.0`). -/
def COLL_fcoords_from_ijk (i j k : ℤ) : FVector :=
  ⟨(i : ℚ), (j : ℚ), (k : ℚ)⟩

/-- One component of `COLL_fvector_separation`: the difference
`b - a`, folded back by one period when a periodic boundary is present
(first the upper test, then the lower test on the updated value, as in
the source). -/
def sepComponent (per : Bool) (len a b : ℚ) : ℚ :=
  if per then
    let d1 := b - a
    let d2 := if d1 > len / 2 then d1 - len else d1
    if d2 < -(len / 2) then d2 + len else d2
  else b - a

/-- Source `COLL_fvector_separation`: minimum-image vector from `r1` to `r2`. -/
def COLL_fvector_separation (e : Env) (r1 r2 : FVector) : FVector :=
  ⟨sepComponent e.perX e.lenX r1.x r2.x,
   sepComponent e.perY e.lenY r1.y r2.y,
   sepComponent e.perZ e.lenZ r1.z r2.z⟩

/-- Source `imax` from the C utilities: integer maximum. -/
def imax (a b : ℤ) : ℤ := max a b

/-- Source `imin` from the C utilities: integer minimum. -/
def imin (a b : ℤ) : ℤ := min a b

/-- Modelled from the spec (lattice geometry collaborator,
`get_site_index` in `coords.c`): the flat index of site `(i,j,k)`,
fixed as the inverse of `COM_index2coord` in `build.c` (whose layout
`yfac = N[Z]+2*nhalo_`, `xfac = (N[Y]+2*nhalo_)*yfac` and base
`1 - nhalo_` appear there explicitly, together with the assertion
`get_site_index(coord.x, coord.y, coord.z) == index`). -/
def get_site_index (d : Domain) (i j k : ℤ) : ℤ :=
  let yfac := d.nz + 2 * d.nhalo
  let xfac := (d.ny + 2 * d.nhalo) * yfac
  (i - (1 - d.nhalo)) * xfac + (j - (1 - d.nhalo)) * yfac + (k - (1 - d.nhalo))

/-- Source `COM_index2coord`: translate a flat local index back to local
coordinates. -/
def COM_index2coord (d : Domain) (index : ℤ) : IVector :=
  let yfac := d.nz + 2 * d.nhalo
  let xfac := (d.ny + 2 * d.nhalo) * yfac
  ⟨(1 - d.nhalo) + Int.ediv index xfac,
   (1 - d.nhalo) + Int.ediv (Int.emod index xfac) yfac,
   (1 - d.nhalo) + Int.emod index yfac⟩

/-- The inclusive integer range `[a, b]` as a list (a C
`for (n = a; n <= b; n++)` loop). -/
def intRange (a b : ℤ) : List ℤ :=
  (List.range (b + 1 - a).toNat).map (fun n => a + (n : ℤ))

/-- Per-axis site limits of a cubic traversal box. -/
structure SiteBox where
  imin : ℤ
  imax : ℤ
  jmin : ℤ
  jmax : ℤ
  kmin : ℤ
  kmax : ℤ
deriving DecidableEq, Repr

/-- The sites of a box in traversal order (three nested loops). -/
def SiteBox.sites (b : SiteBox) : List IVector :=
  (intRange b.imin b.imax).flatMap fun i =>
    (intRange b.jmin b.jmax).flatMap fun j =>
      (intRange b.kmin b.kmax).map fun k => (⟨i, j, k⟩ : IVector)

/-- The particle centre translated to local coordinates
(`r0.x -= (double) offset[X]` etc.). -/
def colloidLocalPosition (e : Env) (c : Colloid) : FVector :=
  ⟨c.r.x - (e.offset.x : ℚ), c.r.y - (e.offset.y : ℚ), c.r.z - (e.offset.z : ℚ)⟩

/-- The traversal box of the occupancy rebuild `COLL_update_map`:
centre ± radius per axis, clipped to the local domain extended by the
halo, `[1-nhalo_, N+nhalo_]`. -/
def COLL_update_map_box (e : Env) (c : Colloid) : SiteBox :=
  let r0 := colloidLocalPosition e c
  { imin := imax (1 - e.dom.nhalo) ⌊r0.x - c.a0⌋
    imax := imin (e.dom.nx + e.dom.nhalo) ⌈r0.x + c.a0⌉
    jmin := imax (1 - e.dom.nhalo) ⌊r0.y - c.a0⌋
    jmax := imin (e.dom.ny + e.dom.nhalo) ⌈r0.y + c.a0⌉
    kmin := imax (1 - e.dom.nhalo) ⌊r0.z - c.a0⌋
    kmax := imin (e.dom.nz + e.dom.nhalo) ⌈r0.z + c.a0⌉ }

/-- The traversal box of the link rebuild `COLL_reconstruct_links`
(and of `reconstruct_wall_links`): centre ± radius per axis, clipped
to the local domain proper, `[1, N]`. -/
def COLL_reconstruct_box (e : Env) (c : Colloid) : SiteBox :=
  let r0 := colloidLocalPosition e c
  { imin := imax 1 ⌊r0.x - c.a0⌋
    imax := imin e.dom.nx ⌈r0.x + c.a0⌉
    jmin := imax 1 ⌊r0.y - c.a0⌋
    jmax := imin e.dom.ny ⌈r0.y + c.a0⌉
    kmin := imax 1 ⌊r0.z - c.a0⌋
    kmax := imin e.dom.nz ⌈r0.z + c.a0⌉ }

/-- Modelled from the spec (distribution accessor collaborator):
`distribution_zeroth_moment`, the zeroth velocity moment of the
distribution `nd` at a site, i.e. the sum of all `NVEL` components. -/
def distribution_zeroth_moment (e : Env) (st : Store) (index : ℤ) (nd : ℕ) : ℚ :=
  ((List.range e.model.nvel).map (fun p => st.f index p nd)).sum

/-- Modelled from the spec (distribution accessor collaborator):
`distribution_first_moment`, the first velocity moment of the
distribution `nd` at a site: the `cv`-weighted sum of its components. -/
def distribution_first_moment (e : Env) (st : Store) (index : ℤ) (nd : ℕ) : FVector :=
  (List.range e.model.nvel).foldl
    (fun u p => UTIL_fvector_add u (fvecSmul (st.f index p nd) (cvF e.model p)))
    UTIL_fvector_zero

/-- Source `build_remove_fluid`: record the mass, momentum and torque carried
by the fluid at a newly covered site as corrections on the colloid. -/
def build_remove_fluid (e : Env) (st : Store) (index : ℤ) (c : Colloid) : Colloid :=
  let oldrho := distribution_zeroth_moment e st index 0
  let oldu := distribution_first_moment e st index 0
  let ri := COM_index2coord e.dom index
  let rb0 := COLL_fcoords_from_ijk ri.x ri.y ri.z
  let r0 := colloidLocalPosition e c
  let rb := COLL_fvector_separation e r0 rb0
  { c with
    deltam := c.deltam - (oldrho - e.rho0)
    f0 := UTIL_fvector_add c.f0 oldu
    t0 := UTIL_fvector_add c.t0 (UTIL_cross_product rb oldu) }

/-- Source `build_remove_order_parameter`: record the order parameter lost at
a newly covered site as a correction on the colloid. -/
def build_remove_order_parameter (e : Env) (st : Store) (index : ℤ) (c : Colloid) : Colloid :=
  let phi := if e.phiFd then st.phiOp index 0 else distribution_zeroth_moment e st index 1
  { c with deltaphi := c.deltaphi + (phi - e.phi0) }

/-- The neighbour-eligibility test of the newly-exposed correction:
the site is skipped when `coll_old[indexn]` is non-null or the current
site-map status is `SOLID`
(`if (coll_old[indexn] || site_map_get_status_index(indexn)==SOLID) continue;`). -/
def replaceEligible (st : Store) (n : ℤ) : Bool :=
  decide (st.collOld n = none ∧ st.status n ≠ SiteStatus.SOLID)

/-- Modelled from the spec (per the claim's own wording, for comparison
with `replaceEligible`): a neighbour is fluid in *both* occupancy
snapshots, i.e. unowned in the previous and in the current snapshot. -/
def specEligibleBothSnapshots (st : Store) (n : ℤ) : Bool :=
  decide (st.collOld n = none ∧ st.collMap n = none)

/-- Flat index of the neighbour of site `ri` along direction `p`
(`get_site_index(ri.x + cv[p][X], ri.y + cv[p][Y], ri.z + cv[p][Z])`). -/
def neighborIndex (e : Env) (ri : IVector) (p : ℕ) : ℤ :=
  get_site_index e.dom (ri.x + (e.model.cv p).x) (ri.y + (e.model.cv p).y)
    (ri.z + (e.model.cv p).z)

/-- The accumulation loop of `build_replace_fluid` (and of the
lattice-Boltzmann branch of `build_replace_order_parameter`, with
`nd = 1`): over the nonzero directions, an eligible neighbour
contributes its whole distribution scaled by that direction's
quadrature weight `wv[p]`, and the weight itself is accumulated.
Returns the accumulated components and the accumulated weight. -/
def replaceAccum (e : Env) (st : Store) (ri : IVector) (nd : ℕ) : (ℕ → ℚ) × ℚ :=
  (velDirs e.model).foldl
    (fun acc p =>
      let indexn := neighborIndex e ri p
      if replaceEligible st indexn then
        ((fun pd => acc.1 pd + e.model.wv p * st.f indexn pd nd), acc.2 + e.model.wv p)
      else acc)
    ((fun _ => 0), 0)

/-- The accumulated distribution components of the newly-exposed
correction (`newf`). -/
def replaceNewf (e : Env) (st : Store) (ri : IVector) (pd : ℕ) : ℚ :=
  (replaceAccum e st ri 0).1 pd

/-- The accumulated weight of the newly-exposed correction (`weight`). -/
def replaceWeight (e : Env) (st : Store) (ri : IVector) : ℚ :=
  (replaceAccum e st ri 0).2

/-- Source `build_replace_fluid`: synthesise the distribution at a newly
exposed site as the weight-renormalised neighbour average, write it,
and record the mass, momentum and torque corrections on the colloid.
The source contains no fatal check: the reciprocal `1.0/weight` is
taken unconditionally. -/
def build_replace_fluid (e : Env) (st : Store) (index : ℤ) (c : Colloid) : Store × Colloid :=
  let ri := COM_index2coord e.dom index
  let acc := replaceAccum e st ri 0
  let w := 1 / acc.2
  let newf := fun p => acc.1 p * w
  let st1 := { st with f := fun m p nd =>
      if m = index ∧ nd = 0 ∧ p < e.model.nvel then newf p else st.f m p nd }
  let newrho := ((List.range e.model.nvel).map newf).sum
  let newu := (List.range e.model.nvel).foldl
      (fun (u : FVector) p =>
        ⟨u.x - newf p * ((e.model.cv p).x : ℚ),
         u.y - newf p * ((e.model.cv p).y : ℚ),
         u.z - newf p * ((e.model.cv p).z : ℚ)⟩)
      UTIL_fvector_zero
  let rb0 := COLL_fcoords_from_ijk ri.x ri.y ri.z
  let r0 := colloidLocalPosition e c
  let rb := COLL_fvector_separation e r0 rb0
  (st1,
   { c with
     deltam := c.deltam + (newrho - e.rho0)
     f0 := UTIL_fvector_add c.f0 newu
     t0 := UTIL_fvector_add c.t0 (UTIL_cross_product rb newu) })

/-- Source `build_replace_order_parameter`: synthesise the order parameter at
a newly exposed site.  In the finite-difference branch the source
accumulates `wv[p]*phi_op_get_phi_site(index, n)` — reading the
exposed site itself — over eligible directions; in the
lattice-Boltzmann branch it averages the neighbours' distribution 1.
Neither branch checks the weight before taking its reciprocal. -/
def build_replace_order_parameter (e : Env) (st : Store) (index : ℤ) (c : Colloid) :
    Store × Colloid :=
  let ri := COM_index2coord e.dom index
  if e.phiFd then
    let acc := (velDirs e.model).foldl
      (fun (acc : (ℕ → ℚ) × ℚ) p =>
        let indexn := neighborIndex e ri p
        if replaceEligible st indexn then
          ((fun n => acc.1 n + e.model.wv p * st.phiOp index n), acc.2 + e.model.wv p)
        else acc)
      ((fun _ => 0), 0)
    let w := 1 / acc.2
    let st1 := { st with phiOp := fun m n =>
        if m = index ∧ n < e.nop then acc.1 n * w else st.phiOp m n }
    (st1, { c with deltaphi := c.deltaphi - (0 - e.phi0) })
  else
    let acc := replaceAccum e st ri 1
    let w := 1 / acc.2
    let newg := fun p => acc.1 p * w
    let st1 := { st with f := fun m p nd =>
        if m = index ∧ nd = 1 ∧ p < e.model.nvel then newg p else st.f m p nd }
    let newphi := ((List.range e.model.nvel).map newg).sum
    (st1, { c with deltaphi := c.deltaphi - (newphi - e.phi0) })

/-- The halo test of `COLL_remove_or_replace_fluid`:
`i < 1 || j < 1 || k < 1 || i > N[X] || j > N[Y] || k > N[Z]`. -/
def isHaloSite (e : Env) (i j k : ℤ) : Bool :=
  decide (i < 1 ∨ j < 1 ∨ k < 1 ∨ i > e.dom.nx ∨ j > e.dom.ny ∨ k > e.dom.nz)

/-- The per-site body of `COLL_remove_or_replace_fluid`: diff the two
occupancy snapshots at one site; on a transition set the owning
particle's rebuild flag, and, only when the site is not in the halo,
apply the removal (newly covered) or replacement (newly exposed)
corrections. -/
def transitionSite (e : Env) (st : Store) (i j k : ℤ) : Store :=
  let index := get_site_index e.dom i j k
  let halo := isHaloSite e i j k
  match st.collOld index, st.collMap index with
  | none, some cid =>
    let c := { st.colloids cid with rebuild := true }
    if halo then st.setColloid cid c
    else
      let c1 := build_remove_fluid e st index c
      let c2 := build_remove_order_parameter e st index c1
      st.setColloid cid c2
  | some cid, none =>
    let c := { st.colloids cid with rebuild := true }
    if halo then st.setColloid cid c
    else
      let r1 := build_replace_fluid e st index c
      let r2 := build_replace_order_parameter e r1.1 index r1.2
      r2.1.setColloid cid r2.2
  | none, none => st
  | some _, some _ => st

/-- The full extended local region `[1-nhalo, N+nhalo]` per axis. -/
def extendedBox (d : Domain) : SiteBox :=
  { imin := 1 - d.nhalo, imax := d.nx + d.nhalo
    jmin := 1 - d.nhalo, jmax := d.ny + d.nhalo
    kmin := 1 - d.nhalo, kmax := d.nz + d.nhalo }

/-- Source `COLL_remove_or_replace_fluid`: the transition pass over every
site of the extended local region. -/
def COLL_remove_or_replace_fluid (e : Env) (st : Store) : Store :=
  ((extendedBox e.dom).sites).foldl (fun st v => transitionSite e st v.x v.y v.z) st

/-- One step of the first loop of `COLL_update_map`: set the site back
to `FLUID` only when its current status is `COLLOID` (the guard that
`avoids setting BOUNDARY to FLUID`). -/
def mapResetOne (e : Env) (st : Store) (v : IVector) : Store :=
  let index := get_site_index e.dom v.x v.y v.z
  if st.status index = SiteStatus.COLLOID then st.setStatus index SiteStatus.FLUID
  else st

/-- The first phase of `COLL_update_map`: reset every currently
`COLLOID` site of the extended local region to `FLUID`. -/
def COLL_update_map_reset (e : Env) (st : Store) : Store :=
  ((extendedBox e.dom).sites).foldl (mapResetOne e) st

/-- The snapshot swap of `COLL_update_map`: copy the current occupancy
snapshot into the previous one and clear the current one. -/
def COLL_update_map_swap (st : Store) : Store :=
  { st with collOld := st.collMap, collMap := fun _ => none }

/-- The inside test of `COLL_update_map`: the squared minimum-image
separation between the site and the colloid centre is below the
squared radius. -/
def mapInsideTest (e : Env) (c : Colloid) (v : IVector) : Bool :=
  let r0 := colloidLocalPosition e c
  let rsite0 := COLL_fcoords_from_ijk v.x v.y v.z
  let rsep := COLL_fvector_separation e rsite0 r0
  decide (UTIL_dot_product rsep rsep < c.a0 * c.a0)

/-- The per-colloid claiming loop of `COLL_update_map`: for every site
of the clipped bounding box that lies inside the colloid, write the
colloid into the current occupancy snapshot and set the site status to
`COLLOID` — with no check of any prior owner. -/
def COLL_update_map_colloid (e : Env) (st : Store) (c : Colloid) : Store :=
  ((COLL_update_map_box e c).sites).foldl
    (fun st v =>
      if mapInsideTest e c v then
        let index := get_site_index e.dom v.x v.y v.z
        (st.setCollMap index (some c.id)).setStatus index SiteStatus.COLLOID
      else st)
    st

/-- Source `COLL_update_map`: the full occupancy rebuild — status reset,
snapshot swap, then the claiming pass over the given particles. -/
def COLL_update_map (e : Env) (st : Store) (cs : List Colloid) : Store :=
  cs.foldl (COLL_update_map_colloid e) (COLL_update_map_swap (COLL_update_map_reset e st))

/-- The flat indices claimed by one colloid during the claiming pass:
the inside sites of its clipped bounding box. -/
def claimedIndices (e : Env) (c : Colloid) : List ℤ :=
  ((((COLL_update_map_box e c).sites).filter (mapInsideTest e c)).map
    (fun v => get_site_index e.dom v.x v.y v.z))

/-- A boundary link record (C struct `COLL_Link`): outside (fluid-side)
site `i`, inside (solid-side) site `j`, lattice direction `v`, boundary
vector `rb`, and status. -/
structure COLL_Link where
  i : ℤ
  j : ℤ
  v : ℕ
  rb : FVector
  status : LinkStatus
deriving DecidableEq, Repr

/-- Source `COLL_link_mean_contrib`: add one link's contribution to the
colloid's moment accumulators `cbar`, `rxcbar` and `sumw`. -/
def COLL_link_mean_contrib (e : Env) (c : Colloid) (p : ℕ) (rb : FVector) : Colloid :=
  let rxc := UTIL_cross_product rb (cvF e.model p)
  { c with
    cbar := UTIL_fvector_add c.cbar (fvecSmul (e.model.wv p) (cvF e.model p))
    rxcbar := UTIL_fvector_add c.rxcbar (fvecSmul (e.model.wv p) rxc)
    sumw := c.sumw + e.model.wv p }

/-- Source `COLL_set_virtual_velocity`: write the equilibrium value
`wv[p]*(1 + 3*(u·cv[p]))` into distribution 0 at site `inode`,
component `p`. -/
def COLL_set_virtual_velocity (e : Env) (st : Store) (inode : ℤ) (p : ℕ) (u : FVector) :
    Store :=
  let uc := u.x * ((e.model.cv p).x : ℚ) + u.y * ((e.model.cv p).y : ℚ)
    + u.z * ((e.model.cv p).z : ℚ)
  st.setF inode p 0 (e.model.wv p * (1 + 3 * uc))

/-- The boundary vector of a link: the centre-to-outside-site
separation plus `lambda = 0.5` of the direction vector
(`p_link->rb.x = rsep.x + lambda*cv[p][0]` etc.). -/
def linkBoundaryVector (e : Env) (rsep : FVector) (p : ℕ) : FVector :=
  let lambda : ℚ := 1 / 2
  ⟨rsep.x + lambda * ((e.model.cv p).x : ℚ),
   rsep.y + lambda * ((e.model.cv p).y : ℚ),
   rsep.z + lambda * ((e.model.cv p).z : ℚ)⟩

/-- The status branch shared by rebuild and reset: a link is `FLUID`
when the site-map status of its outside site is `FLUID`, else
`COLLOID`. -/
def linkStatusFor (stat : ℤ → SiteStatus) (index1 : ℤ) : LinkStatus :=
  if stat index1 = SiteStatus.FLUID then LinkStatus.FLUID else LinkStatus.COLLOID

/-- The stream of link records produced by the traversal of
`COLL_reconstruct_links`, in traversal order: for every box site not
owned by this colloid, and every nonzero direction whose neighbour is
owned by this colloid, one link. -/
def COLL_reconstruct_new_links (e : Env) (st : Store) (c : Colloid) : List COLL_Link :=
  let r0 := colloidLocalPosition e c
  ((COLL_reconstruct_box e c).sites).flatMap fun v =>
    let index1 := get_site_index e.dom v.x v.y v.z
    if st.collMap index1 = some c.id then []
    else
      let rsite1 := COLL_fcoords_from_ijk v.x v.y v.z
      let rsep := COLL_fvector_separation e r0 rsite1
      (velDirs e.model).filterMap fun p =>
        let index0 := get_site_index e.dom (v.x + (e.model.cv p).x)
          (v.y + (e.model.cv p).y) (v.z + (e.model.cv p).z)
        if st.collMap index0 = some c.id then
          some { i := index1, j := index0, v := p
                 rb := linkBoundaryVector e rsep p
                 status := linkStatusFor st.status index1 }
        else none

/-- The per-link side effects shared by rebuild and reset: a `FLUID`
link contributes to the moment accumulators; otherwise the solid-side
site receives the virtual equilibrium distribution for the rigid-body
surface velocity `omega × rb + v`. -/
def linkEnterEffects (e : Env) (st : Store) (c : Colloid) (l : COLL_Link) : Store × Colloid :=
  if l.status = LinkStatus.FLUID then
    (st, COLL_link_mean_contrib e c l.v l.rb)
  else
    let ub := UTIL_fvector_add (UTIL_cross_product c.omega l.rb) c.v
    (COLL_set_virtual_velocity e st l.j l.v ub, c)

/-- Mark a link record unused (the failsafe pass at the top of
`COLL_reconstruct_links`). -/
def COLL_Link.setUnused (l : COLL_Link) : COLL_Link := { l with status := LinkStatus.UNUSED }

/-- Overwrite existing records in order with the new link stream,
appending fresh records when the existing ones run out and keeping any
excess existing records (already marked unused). -/
def overlayLinks : List COLL_Link → List COLL_Link → List COLL_Link
  | old, [] => old
  | [], n :: ns => n :: overlayLinks [] ns
  | _ :: os, n :: ns => n :: overlayLinks os ns

/-- Source `COLL_reconstruct_links`: mark every record unused, regenerate the
link stream from the occupancy snapshot, overwrite/append records, and
apply the per-link effects (moment contributions and virtual
distributions). -/
def COLL_reconstruct_links (e : Env) (st : Store) (c : Colloid) (lnk : List COLL_Link) :
    List COLL_Link × Store × Colloid :=
  let news := COLL_reconstruct_new_links e st c
  let links := overlayLinks (lnk.map COLL_Link.setUnused) news
  let eff := news.foldl (fun (sc : Store × Colloid) l => linkEnterEffects e sc.1 sc.2 l)
    (st, c)
  (links, eff.1, eff.2)

/-- The per-link recomputation of `COLL_reset_links`: an unused record
is left alone; otherwise the boundary vector is recomputed from the
current centre and the link's fixed outside site, and the status is
re-derived from the current site map. -/
def resetOneLink (e : Env) (stat : ℤ → SiteStatus) (r0 : FVector) (l : COLL_Link) :
    COLL_Link :=
  if l.status = LinkStatus.UNUSED then l
  else
    let isite := COM_index2coord e.dom l.i
    let rsite := COLL_fcoords_from_ijk isite.x isite.y isite.z
    let rsep := COLL_fvector_separation e r0 rsite
    { l with rb := linkBoundaryVector e rsep l.v, status := linkStatusFor stat l.i }

/-- Source `COLL_reset_links`: walk the existing records in order, skipping
unused ones, recomputing each active record in place and applying the
per-link effects. -/
def COLL_reset_links (e : Env) (st : Store) (c : Colloid) (lnk : List COLL_Link) :
    List COLL_Link × Store × Colloid :=
  match lnk with
  | [] => ([], st, c)
  | l :: ls =>
    if l.status = LinkStatus.UNUSED then
      let rest := COLL_reset_links e st c ls
      (l :: rest.1, rest.2)
    else
      let l2 := resetOneLink e st.status (colloidLocalPosition e c) l
      let eff := linkEnterEffects e st c l2
      let rest := COLL_reset_links e eff.1 eff.2 ls
      (l2 :: rest.1, rest.2)

/-- The stream of wall links produced by the traversal of
`reconstruct_wall_links`: for every box site owned by this colloid and
every nonzero direction whose neighbour has `BOUNDARY` status, one
link with the outside wall site as `i`, the owned site as `j`, the
complementary direction index `NVEL - p`, and status `BOUNDARY`. -/
def wall_new_links (e : Env) (st : Store) (c : Colloid) : List COLL_Link :=
  let r0 := colloidLocalPosition e c
  ((COLL_reconstruct_box e c).sites).flatMap fun v =>
    let index1 := get_site_index e.dom v.x v.y v.z
    if st.collMap index1 = some c.id then
      let rsite1 := COLL_fcoords_from_ijk v.x v.y v.z
      let rsep := COLL_fvector_separation e r0 rsite1
      (velDirs e.model).filterMap fun p =>
        let index0 := get_site_index e.dom (v.x + (e.model.cv p).x)
          (v.y + (e.model.cv p).y) (v.z + (e.model.cv p).z)
        if st.status index0 = SiteStatus.BOUNDARY then
          some { i := index0, j := index1, v := e.model.nvel - p
                 rb := linkBoundaryVector e rsep p
                 status := LinkStatus.BOUNDARY }
        else none
    else []

/-- Split a link list at the first unused record: the walk
`while (p_link && p_link->status != LINK_UNUSED)` at the top of
`reconstruct_wall_links`. -/
def splitAtFirstUnused : List COLL_Link → List COLL_Link × List COLL_Link
  | [] => ([], [])
  | l :: ls =>
    if l.status = LinkStatus.UNUSED then ([], l :: ls)
    else
      let r := splitAtFirstUnused ls
      (l :: r.1, r.2)

/-- Source `reconstruct_wall_links`: reuse records from the first unused one
onward for the wall link stream, appending at the end of the list when
they run out — fatal (`"No links in list"`) when an append is needed
while the particle's link list is empty. -/
def reconstruct_wall_links (e : Env) (st : Store) (c : Colloid) (lnk : List COLL_Link) :
    Except String (List COLL_Link) :=
  let news := wall_new_links e st c
  if lnk = [] ∧ news ≠ [] then Except.error "No links in list"
  else Except.ok ((splitAtFirstUnused lnk).1 ++ overlayLinks (splitAtFirstUnused lnk).2 news)

/-- The `FLUID`-status links of a link list. -/
def fluidLinks (L : List COLL_Link) : List COLL_Link :=
  L.filter (fun l => l.status = LinkStatus.FLUID)

/-- Sum of a list of vectors. -/
def fvecListSum (L : List FVector) : FVector := L.foldr UTIL_fvector_add UTIL_fvector_zero

/-- The quadrature-weight sum over the `FLUID` links of a list. -/
def fluidWeightSum (e : Env) (L : List COLL_Link) : ℚ :=
  ((fluidLinks L).map (fun l => e.model.wv l.v)).sum

/-- The weight-times-direction-vector sum over the `FLUID` links. -/
def fluidCbarSum (e : Env) (L : List COLL_Link) : FVector :=
  fvecListSum ((fluidLinks L).map (fun l => fvecSmul (e.model.wv l.v) (cvF e.model l.v)))

/-- The weight-times-(boundary vector × direction vector) sum over the
`FLUID` links. -/
def fluidRxcbarSum (e : Env) (L : List COLL_Link) : FVector :=
  fvecListSum ((fluidLinks L).map (fun l =>
    fvecSmul (e.model.wv l.v) (UTIL_cross_product l.rb (cvF e.model l.v))))

/-- The accumulator zeroing at the top of the per-colloid body of
`COLL_update_links`: `sumw`, `cbar` and `rxcbar` are set to zero
before any link building. -/
def COLL_update_links_zero (c : Colloid) : Colloid :=
  { c with sumw := 0, cbar := UTIL_fvector_zero, rxcbar := UTIL_fvector_zero }

/-- The per-colloid body of `COLL_update_links`: zero the three moment
accumulators, then rebuild (plus wall links when walls are present) or
reset according to the rebuild flag, which is cleared afterwards. -/
def COLL_update_links_one (e : Env) (st : Store) (c : Colloid) (lnk : List COLL_Link) :
    Except String (List COLL_Link × Store × Colloid) :=
  if c.rebuild then
    let r := COLL_reconstruct_links e st (COLL_update_links_zero c) lnk
    if e.boundariesPresent then
      match reconstruct_wall_links e r.2.1 r.2.2 r.1 with
      | Except.error s => Except.error s
      | Except.ok L2 => Except.ok (L2, r.2.1, { r.2.2 with rebuild := false })
    else Except.ok (r.1, r.2.1, { r.2.2 with rebuild := false })
  else
    let r := COLL_reset_links e st (COLL_update_links_zero c) lnk
    Except.ok (r.1, r.2.1, { r.2.2 with rebuild := false })

theorem Store.setStatus_status (st : Store) (n : ℤ) (v : SiteStatus) (m : ℤ) :
    (st.setStatus n v).status m = if m = n then v else st.status m := rfl

theorem Store.setStatus_collMap (st : Store) (n : ℤ) (v : SiteStatus) :
    (st.setStatus n v).collMap = st.collMap := rfl

theorem Store.setStatus_collOld (st : Store) (n : ℤ) (v : SiteStatus) :
    (st.setStatus n v).collOld = st.collOld := rfl

theorem Store.setStatus_f (st : Store) (n : ℤ) (v : SiteStatus) :
    (st.setStatus n v).f = st.f := rfl

theorem Store.setStatus_colloids (st : Store) (n : ℤ) (v : SiteStatus) :
    (st.setStatus n v).colloids = st.colloids := rfl

theorem Store.setCollMap_collMap (st : Store) (n : ℤ) (o : Option ℕ) (m : ℤ) :
    (st.setCollMap n o).collMap m = if m = n then o else st.collMap m := rfl

theorem Store.setCollMap_status (st : Store) (n : ℤ) (o : Option ℕ) :
    (st.setCollMap n o).status = st.status := rfl

theorem Store.setCollMap_collOld (st : Store) (n : ℤ) (o : Option ℕ) :
    (st.setCollMap n o).collOld = st.collOld := rfl

theorem Store.setF_f (st : Store) (n : ℤ) (p nd : ℕ) (q : ℚ) (m : ℤ) (p2 nd2 : ℕ) :
    (st.setF n p nd q).f m p2 nd2
      = if m = n ∧ p2 = p ∧ nd2 = nd then q else st.f m p2 nd2 := rfl

theorem Store.setF_status (st : Store) (n : ℤ) (p nd : ℕ) (q : ℚ) :
    (st.setF n p nd q).status = st.status := rfl

theorem Store.setF_collMap (st : Store) (n : ℤ) (p nd : ℕ) (q : ℚ) :
    (st.setF n p nd q).collMap = st.collMap := rfl

theorem Store.setF_collOld (st : Store) (n : ℤ) (p nd : ℕ) (q : ℚ) :
    (st.setF n p nd q).collOld = st.collOld := rfl

theorem Store.setF_colloids (st : Store) (n : ℤ) (p nd : ℕ) (q : ℚ) :
    (st.setF n p nd q).colloids = st.colloids := rfl

theorem Store.setColloid_colloids (st : Store) (cid : ℕ) (c : Colloid) (m : ℕ) :
    (st.setColloid cid c).colloids m = if m = cid then c else st.colloids m := rfl

theorem Store.setColloid_f (st : Store) (cid : ℕ) (c : Colloid) :
    (st.setColloid cid c).f = st.f := rfl

theorem Store.setColloid_phiOp (st : Store) (cid : ℕ) (c : Colloid) :
    (st.setColloid cid c).phiOp = st.phiOp := rfl

theorem Store.setColloid_status (st : Store) (cid : ℕ) (c : Colloid) :
    (st.setColloid cid c).status = st.status := rfl

theorem Store.setColloid_collMap (st : Store) (cid : ℕ) (c : Colloid) :
    (st.setColloid cid c).collMap = st.collMap := rfl

theorem Store.setColloid_collOld (st : Store) (cid : ℕ) (c : Colloid) :
    (st.setColloid cid c).collOld = st.collOld := rfl

theorem UTIL_fvector_add_assoc (a b c : FVector) :
    UTIL_fvector_add (UTIL_fvector_add a b) c = UTIL_fvector_add a (UTIL_fvector_add b c) := by
  simp only [UTIL_fvector_add, FVector.mk.injEq]
  refine ⟨by ring, by ring, by ring⟩

theorem UTIL_fvector_add_zero (a : FVector) :
    UTIL_fvector_add a UTIL_fvector_zero = a := by
  simp [UTIL_fvector_add, UTIL_fvector_zero]

theorem UTIL_fvector_zero_add (a : FVector) :
    UTIL_fvector_add UTIL_fvector_zero a = a := by
  simp [UTIL_fvector_add, UTIL_fvector_zero]

theorem clipMax (nh t : ℤ) (h : 0 ≤ nh) : max 1 (max (1 - nh) t) = max 1 t := by
  omega

theorem clipMin (n nh t : ℤ) (h : 0 ≤ nh) : min n (min (n + nh) t) = min n t := by
  omega

/-- Claim C3 (amended): the full-rebuild traversal box is the bounding
box centre ± radius clipped to the local domain proper `[1, N]` per
axis — i.e. the occupancy-rebuild box clipped once more to `[1, N]` —
not the halo-extended range used by the occupancy rebuild. -/
theorem claim3_reconstruct_box_is_core_clip (e : Env) (c : Colloid)
    (h : 0 ≤ e.dom.nhalo) :
    (COLL_reconstruct_box e c).imin = imax 1 (COLL_update_map_box e c).imin
    ∧ (COLL_reconstruct_box e c).imax = imin e.dom.nx (COLL_update_map_box e c).imax
    ∧ (COLL_reconstruct_box e c).jmin = imax 1 (COLL_update_map_box e c).jmin
    ∧ (COLL_reconstruct_box e c).jmax = imin e.dom.ny (COLL_update_map_box e c).jmax
    ∧ (COLL_reconstruct_box e c).kmin = imax 1 (COLL_update_map_box e c).kmin
    ∧ (COLL_reconstruct_box e c).kmax = imin e.dom.nz (COLL_update_map_box e c).kmax := by
  unfold COLL_reconstruct_box COLL_update_map_box imax imin
  refine ⟨?_, ?_, ?_, ?_, ?_, ?_⟩ <;> dsimp only <;> omega

/-- Claim C8: at a halo-region site, the transition handler leaves the
distribution, order-parameter, status and occupancy stores and every
particle's mass/order-parameter deficits and force/torque correction
vectors untouched, and on an occupancy transition it (only) sets the
owning particle's rebuild flag. -/
theorem claim8_halo_transition_only_rebuild (e : Env) (st : Store) (i j k : ℤ)
    (h : isHaloSite e i j k = true) :
    (transitionSite e st i j k).f = st.f
    ∧ (transitionSite e st i j k).phiOp = st.phiOp
    ∧ (transitionSite e st i j k).status = st.status
    ∧ (transitionSite e st i j k).collMap = st.collMap
    ∧ (transitionSite e st i j k).collOld = st.collOld
    ∧ (∀ n : ℕ,
        ((transitionSite e st i j k).colloids n).deltam = (st.colloids n).deltam
        ∧ ((transitionSite e st i j k).colloids n).deltaphi = (st.colloids n).deltaphi
        ∧ ((transitionSite e st i j k).colloids n).f0 = (st.colloids n).f0
        ∧ ((transitionSite e st i j k).colloids n).t0 = (st.colloids n).t0)
    ∧ (∀ cid : ℕ,
        (st.collOld (get_site_index e.dom i j k) = none
            ∧ st.collMap (get_site_index e.dom i j k) = some cid)
          ∨ (st.collOld (get_site_index e.dom i j k) = some cid
            ∧ st.collMap (get_site_index e.dom i j k) = none) →
        ((transitionSite e st i j k).colloids cid).rebuild = true) := by
  unfold transitionSite
  cases h1 : st.collOld (get_site_index e.dom i j k) with
  | none =>
    cases h2 : st.collMap (get_site_index e.dom i j k) with
    | none => simp [h1, h2]
    | some cid =>
      simp only [h1, h2, h, if_true]
      refine ⟨rfl, rfl, rfl, rfl, rfl, ?_, ?_⟩
      · intro n
        by_cases hn : n = cid <;>
          simp [Store.setColloid_colloids, hn]
      · intro cid2 hc
        rcases hc with ⟨_, hc2⟩ | ⟨hc1, _⟩
        · obtain rfl : cid = cid2 := Option.some.inj hc2
          simp [Store.setColloid_colloids]
        · exact Option.noConfusion hc1
  | some cid =>
    cases h2 : st.collMap (get_site_index e.dom i j k) with
    | none =>
      simp only [h1, h2, h, if_true]
      refine ⟨rfl, rfl, rfl, rfl, rfl, ?_, ?_⟩
      · intro n
        by_cases hn : n = cid <;>
          simp [Store.setColloid_colloids, hn]
      · intro cid2 hc
        rcases hc with ⟨hc1, _⟩ | ⟨hc1, _⟩
        · exact Option.noConfusion hc1
        · obtain rfl : cid = cid2 := Option.some.inj hc1
          simp [Store.setColloid_colloids]
    | some cid2 => simp [h1, h2]

theorem replaceAccumAux (e : Env) (st : Store) (ri : IVector) (nd : ℕ)
    (L : List ℕ) :
    ∀ (nf : ℕ → ℚ) (w : ℚ),
      ((L.foldl (fun (acc : (ℕ → ℚ) × ℚ) p =>
          let indexn := neighborIndex e ri p
          if replaceEligible st indexn then
            ((fun pd => acc.1 pd + e.model.wv p * st.f indexn pd nd), acc.2 + e.model.wv p)
          else acc) (nf, w)).2
        = w + ((L.filter (fun p => replaceEligible st (neighborIndex e ri p))).map
            e.model.wv).sum)
      ∧ ∀ pd : ℕ,
        ((L.foldl (fun (acc : (ℕ → ℚ) × ℚ) p =>
            let indexn := neighborIndex e ri p
            if replaceEligible st indexn then
              ((fun pd => acc.1 pd + e.model.wv p * st.f indexn pd nd), acc.2 + e.model.wv p)
            else acc) (nf, w)).1 pd
          = nf pd + ((L.filter (fun p => replaceEligible st (neighborIndex e ri p))).map
              (fun p => e.model.wv p * st.f (neighborIndex e ri p) pd nd)).sum) := by
  induction L with
  | nil => intro nf w; simp
  | cons a t ih =>
    intro nf w
    by_cases ha : replaceEligible st (neighborIndex e ri a)
    · have h2 := ih (fun pd => nf pd + e.model.wv a * st.f (neighborIndex e ri a) pd nd)
        (w + e.model.wv a)
      simp only [List.foldl_cons, List.filter_cons, ha, if_true]
      refine ⟨?_, ?_⟩
      · rw [h2.1]; simp; ring
      · intro pd
        rw [h2.2 pd]; simp; ring
    · have h2 := ih nf w
      simp only [List.foldl_cons, List.filter_cons, ha, if_false, Bool.false_eq_true]
      exact h2

/-- Claim C1 (amended): in the newly-exposed correction, a neighbour
along direction `p` is included — with weight `wv[p]`, both for the
distribution average and for the order-parameter average — precisely
when it was unowned in the *previous* occupancy snapshot and its
current site-map status is not `SOLID`; the current occupancy snapshot
is not consulted. -/
theorem claim1_exposed_average_inclusion (e : Env) (st : Store) (ri : IVector) :
    (∀ p : ℕ, replaceEligible st (neighborIndex e ri p) = true
        ↔ (st.collOld (neighborIndex e ri p) = none
            ∧ st.status (neighborIndex e ri p) ≠ SiteStatus.SOLID))
    ∧ replaceWeight e st ri
        = (((velDirs e.model).filter
              (fun p => replaceEligible st (neighborIndex e ri p))).map e.model.wv).sum
    ∧ (∀ pd : ℕ, replaceNewf e st ri pd
        = (((velDirs e.model).filter
              (fun p => replaceEligible st (neighborIndex e ri p))).map
            (fun p => e.model.wv p * st.f (neighborIndex e ri p) pd 0)).sum)
    ∧ (∀ pd : ℕ, (replaceAccum e st ri 1).1 pd
        = (((velDirs e.model).filter
              (fun p => replaceEligible st (neighborIndex e ri p))).map
            (fun p => e.model.wv p * st.f (neighborIndex e ri p) pd 1)).sum) := by
  refine ⟨?_, ?_, ?_, ?_⟩
  · intro p
    simp [replaceEligible]
  · have h := (replaceAccumAux e st ri 0 (velDirs e.model) (fun _ => 0) 0).1
    unfold replaceWeight replaceAccum
    rw [h]; ring
  · intro pd
    have h := (replaceAccumAux e st ri 0 (velDirs e.model) (fun _ => 0) 0).2 pd
    unfold replaceNewf replaceAccum
    rw [h]; ring
  · intro pd
    have h := (replaceAccumAux e st ri 1 (velDirs e.model) (fun _ => 0) 0).2 pd
    unfold replaceAccum
    rw [h]; ring

/-- Claim C2 (amended): when the newly-exposed correction has a zero
eligible-weight sum, the routine does not terminate fatally: it still
renormalises by the reciprocal of the zero sum and overwrites the
site's distributions (`build_replace_fluid`, and likewise the
lattice-Boltzmann branch of `build_replace_order_parameter` for
distribution 1). -/
theorem claim2_zero_weight_still_writes (e : Env) (st : Store) (index : ℤ) (c : Colloid)
    (_hw : replaceWeight e st (COM_index2coord e.dom index) = 0) :
    (∀ p : ℕ, p < e.model.nvel →
      (build_replace_fluid e st index c).1.f index p 0
        = replaceNewf e st (COM_index2coord e.dom index) p
            * (1 / replaceWeight e st (COM_index2coord e.dom index)))
    ∧ (e.phiFd = false → ∀ p : ℕ, p < e.model.nvel →
      (build_replace_order_parameter e st index c).1.f index p 1
        = (replaceAccum e st (COM_index2coord e.dom index) 1).1 p
            * (1 / (replaceAccum e st (COM_index2coord e.dom index) 1).2)) := by
  constructor
  · intro p hp
    simp [build_replace_fluid, replaceNewf, replaceWeight, hp]
  · intro hfd p hp
    simp [build_replace_order_parameter, hfd, hp]

/-- A small concrete velocity model for concrete instances: two
entries, with direction 1 pointing along +x. -/
def exModel : LBModel :=
  { nvel := 2
    cv := fun p => if p = 1 then ⟨1, 0, 0⟩ else ⟨0, 0, 0⟩
    wv := fun p => if p = 1 then 1 / 2 else 1 / 4 }

/-- A concrete configuration: a 2×1×1 local domain with one halo
layer (so flat index (i,j,k) ↦ 9i + 3j + k), non-periodic. -/
def exEnv : Env :=
  { dom := { nx := 2, ny := 1, nz := 1, nhalo := 1 }
    lenX := 16, lenY := 16, lenZ := 16
    perX := false, perY := false, perZ := false
    offset := ⟨0, 0, 0⟩
    model := exModel
    rho0 := 1, phi0 := 0
    phiFd := false, nop := 1
    boundariesPresent := false }

/-- A concrete particle at site (1,1,1) with radius 3/5 (covering only
its own site). -/
def exColloidBase : Colloid :=
  { id := 1, r := ⟨1, 1, 1⟩, a0 := 3 / 5
    v := ⟨0, 0, 0⟩, omega := ⟨0, 0, 0⟩
    sumw := 0, cbar := ⟨0, 0, 0⟩, rxcbar := ⟨0, 0, 0⟩
    deltam := 0, deltaphi := 0, f0 := ⟨0, 0, 0⟩, t0 := ⟨0, 0, 0⟩
    rebuild := false }

/-- Concrete store for claim C1's counterexample: site 13 = (1,1,1)
is newly exposed; its +x neighbour 22 = (2,1,1) was unowned in the
previous snapshot but is owned (status `COLLOID`) in the current one. -/
def c1Store : Store :=
  { status := fun n => if n = 22 then SiteStatus.COLLOID else SiteStatus.FLUID
    collMap := fun n => if n = 22 then some 2 else none
    collOld := fun n => if n = 13 then some 1 else none
    f := fun _ _ _ => 0
    phiOp := fun _ _ => 0
    colloids := fun _ => exColloidBase }

/-- Claim C1 counterexample: the newly-exposed correction includes the
neighbour (its weight `wv[1]` enters the sum) even though that
neighbour is owned in the *current* occupancy snapshot — so inclusion
is not equivalent to being fluid in both snapshots. -/
theorem claim1_counterexample :
    replaceEligible c1Store (neighborIndex exEnv ⟨1, 1, 1⟩ 1) = true
    ∧ specEligibleBothSnapshots c1Store (neighborIndex exEnv ⟨1, 1, 1⟩ 1) = false
    ∧ replaceWeight exEnv c1Store ⟨1, 1, 1⟩ = exEnv.model.wv 1 := by
  refine ⟨by decide, by decide, ?_⟩
  have h1 : replaceEligible c1Store 22 = true := by decide
  norm_num [replaceWeight, replaceAccum, velDirs, exEnv, exModel, neighborIndex,
    get_site_index, List.range_succ, h1]

/-- Concrete store for claim C2: site 13 = (1,1,1) is newly exposed
and its only nonzero-direction neighbour 22 = (2,1,1) was owned in the
previous snapshot, so no neighbour is eligible and the weight sum is
zero.  All stored distributions are 5. -/
def c2Store : Store :=
  { status := fun _ => SiteStatus.FLUID
    collMap := fun _ => none
    collOld := fun n => if n = 22 then some 2 else if n = 13 then some 1 else none
    f := fun _ _ _ => 5
    phiOp := fun _ _ => 0
    colloids := fun _ => exColloidBase }

/-- Claim C2 counterexample: with zero eligible neighbours the routine
does not abort — it overwrites the site's distribution (the stored
value changes from 5), contradicting `terminates fatally rather than
writing any new site state`. -/
theorem claim2_counterexample :
    replaceWeight exEnv c2Store (COM_index2coord exEnv.dom 13) = 0
    ∧ (build_replace_fluid exEnv c2Store 13 exColloidBase).1.f 13 0 0 ≠ c2Store.f 13 0 0 := by
  have h2 : replaceEligible c2Store 22 = false := by decide
  have hf : c2Store.f 13 0 0 = 5 := rfl
  constructor
  · norm_num [replaceWeight, replaceAccum, velDirs, exEnv, exModel, neighborIndex,
      get_site_index, COM_index2coord, List.range_succ, h2]
  · norm_num [build_replace_fluid, replaceAccum, velDirs, exEnv, exModel, neighborIndex,
      get_site_index, COM_index2coord, List.range_succ, h2, hf]

/-- Witness for claim C2's amended theorem at the concrete zero-weight
configuration. -/
theorem claim2_witness :
    replaceWeight exEnv c2Store (COM_index2coord exEnv.dom 13) = 0
    ∧ ((∀ p : ℕ, p < exEnv.model.nvel →
        (build_replace_fluid exEnv c2Store 13 exColloidBase).1.f 13 p 0
          = replaceNewf exEnv c2Store (COM_index2coord exEnv.dom 13) p
              * (1 / replaceWeight exEnv c2Store (COM_index2coord exEnv.dom 13)))
      ∧ (exEnv.phiFd = false → ∀ p : ℕ, p < exEnv.model.nvel →
        (build_replace_order_parameter exEnv c2Store 13 exColloidBase).1.f 13 p 1
          = (replaceAccum exEnv c2Store (COM_index2coord exEnv.dom 13) 1).1 p
              * (1 / (replaceAccum exEnv c2Store (COM_index2coord exEnv.dom 13) 1).2))) := by
  have h2 : replaceEligible c2Store 22 = false := by decide
  have hw : replaceWeight exEnv c2Store (COM_index2coord exEnv.dom 13) = 0 := by
    norm_num [replaceWeight, replaceAccum, velDirs, exEnv, exModel, neighborIndex,
      get_site_index, COM_index2coord, List.range_succ, h2]
  exact ⟨hw, claim2_zero_weight_still_writes exEnv c2Store 13 exColloidBase hw⟩

theorem linkEnterEffects_status (e : Env) (st : Store) (c : Colloid) (l : COLL_Link) :
    (linkEnterEffects e st c l).1.status = st.status := by
  unfold linkEnterEffects COLL_set_virtual_velocity
  split
  · rfl
  · rfl

theorem linkEnterEffects_collMap (e : Env) (st : Store) (c : Colloid) (l : COLL_Link) :
    (linkEnterEffects e st c l).1.collMap = st.collMap := by
  unfold linkEnterEffects COLL_set_virtual_velocity
  split
  · rfl
  · rfl

theorem linkEnterEffects_colloid_geometry (e : Env) (st : Store) (c : Colloid)
    (l : COLL_Link) :
    (linkEnterEffects e st c l).2.r = c.r
    ∧ (linkEnterEffects e st c l).2.omega = c.omega
    ∧ (linkEnterEffects e st c l).2.v = c.v := by
  unfold linkEnterEffects COLL_link_mean_contrib
  split
  · exact ⟨rfl, rfl, rfl⟩
  · exact ⟨rfl, rfl, rfl⟩

theorem linkEnterEffects_localPosition (e : Env) (st : Store) (c : Colloid)
    (l : COLL_Link) :
    colloidLocalPosition e (linkEnterEffects e st c l).2 = colloidLocalPosition e c := by
  unfold colloidLocalPosition
  rw [(linkEnterEffects_colloid_geometry e st c l).1]

theorem mem_reconstruct_new_links (e : Env) (st : Store) (c : Colloid) (l : COLL_Link)
    (hl : l ∈ COLL_reconstruct_new_links e st c) :
    l.status = linkStatusFor st.status l.i := by
  unfold COLL_reconstruct_new_links at hl
  rw [List.mem_flatMap] at hl
  obtain ⟨v, _, hv⟩ := hl
  by_cases hown : st.collMap (get_site_index e.dom v.x v.y v.z) = some c.id
  · simp [hown] at hv
  · rw [if_neg hown, List.mem_filterMap] at hv
    obtain ⟨p, _, hp⟩ := hv
    by_cases hin : st.collMap (get_site_index e.dom (v.x + (e.model.cv p).x)
        (v.y + (e.model.cv p).y) (v.z + (e.model.cv p).z)) = some c.id
    · rw [if_pos hin, Option.some.injEq] at hp
      subst hp
      rfl
    · rw [if_neg hin] at hp
      cases hp

theorem mem_reconstruct_new_links_not_unused (e : Env) (st : Store) (c : Colloid)
    (l : COLL_Link) (hl : l ∈ COLL_reconstruct_new_links e st c) :
    l.status ≠ LinkStatus.UNUSED := by
  rw [mem_reconstruct_new_links e st c l hl]
  unfold linkStatusFor
  split
  · exact fun h => LinkStatus.noConfusion h
  · exact fun h => LinkStatus.noConfusion h

theorem overlayLinks_nil (a : List COLL_Link) : overlayLinks a [] = a := by
  cases a <;> rfl

theorem overlayLinks_nil_cons (n : COLL_Link) (ns : List COLL_Link) :
    overlayLinks [] (n :: ns) = n :: overlayLinks [] ns := rfl

theorem overlayLinks_cons_cons (o : COLL_Link) (os : List COLL_Link) (n : COLL_Link)
    (ns : List COLL_Link) : overlayLinks (o :: os) (n :: ns) = n :: overlayLinks os ns := rfl

theorem mem_overlayLinks (l : COLL_Link) :
    ∀ (a b : List COLL_Link), l ∈ overlayLinks a b → l ∈ a ∨ l ∈ b := by
  intro a b
  induction b generalizing a with
  | nil => intro h; rw [overlayLinks_nil] at h; exact Or.inl h
  | cons n ns ih =>
    cases a with
    | nil =>
      intro h
      rw [overlayLinks_nil_cons] at h
      rcases List.mem_cons.mp h with h1 | h1
      · exact Or.inr (List.mem_cons.mpr (Or.inl h1))
      · rcases ih [] h1 with h2 | h2
        · cases h2
        · exact Or.inr (List.mem_cons.mpr (Or.inr h2))
    | cons o os =>
      intro h
      rw [overlayLinks_cons_cons] at h
      rcases List.mem_cons.mp h with h1 | h1
      · exact Or.inr (List.mem_cons.mpr (Or.inl h1))
      · rcases ih os h1 with h2 | h2
        · exact Or.inl (List.mem_cons.mpr (Or.inr h2))
        · exact Or.inr (List.mem_cons.mpr (Or.inr h2))

theorem mem_map_setUnused (l : COLL_Link) (L : List COLL_Link)
    (hl : l ∈ L.map COLL_Link.setUnused) : l.status = LinkStatus.UNUSED := by
  rw [List.mem_map] at hl
  obtain ⟨a, _, ha⟩ := hl
  subst ha
  rfl

theorem resetOneLink_topo (e : Env) (stat : ℤ → SiteStatus) (r0 : FVector) (l : COLL_Link) :
    (resetOneLink e stat r0 l).i = l.i
    ∧ (resetOneLink e stat r0 l).j = l.j
    ∧ (resetOneLink e stat r0 l).v = l.v := by
  unfold resetOneLink
  split
  · exact ⟨rfl, rfl, rfl⟩
  · exact ⟨rfl, rfl, rfl⟩

theorem reset_links_fst (e : Env) :
    ∀ (lnk : List COLL_Link) (st : Store) (c : Colloid),
      (COLL_reset_links e st c lnk).1
        = lnk.map (resetOneLink e st.status (colloidLocalPosition e c)) := by
  intro lnk
  induction lnk with
  | nil => intro st c; rfl
  | cons l ls ih =>
    intro st c
    unfold COLL_reset_links
    by_cases hu : l.status = LinkStatus.UNUSED
    · rw [if_pos hu]
      simp only [List.map_cons]
      have hl : resetOneLink e st.status (colloidLocalPosition e c) l = l := by
        unfold resetOneLink; rw [if_pos hu]
      rw [hl, ih st c]
    · rw [if_neg hu]
      simp only [List.map_cons]
      have hl2 := ih (linkEnterEffects e st c
          (resetOneLink e st.status (colloidLocalPosition e c) l)).1
        (linkEnterEffects e st c (resetOneLink e st.status (colloidLocalPosition e c) l)).2
      rw [hl2, linkEnterEffects_status, linkEnterEffects_localPosition]

theorem reconstruct_links_fst (e : Env) (st : Store) (c : Colloid) (lnk : List COLL_Link) :
    (COLL_reconstruct_links e st c lnk).1
      = overlayLinks (lnk.map COLL_Link.setUnused) (COLL_reconstruct_new_links e st c) := rfl

/-- Claim C4 (amended): every link created by the rebuild traversal,
and every active link refreshed by the reset pass, has status `FLUID`
precisely when the *site-map status* of its outside site is `FLUID`
(not when its occupancy is unowned: an unowned `BOUNDARY` or `SOLID`
site also yields `COLLOID`); and the per-link effect shared by both
paths gives a `COLLOID` link's solid-side site the equilibrium value
`wv[p]*(1 + 3*(u·cv[p]))` with `u = omega × rb + v`. -/
theorem claim4_link_status_and_virtual (e : Env) (st : Store) (c : Colloid) :
    (∀ l ∈ COLL_reconstruct_new_links e st c,
      (l.status = LinkStatus.FLUID ↔ st.status l.i = SiteStatus.FLUID))
    ∧ (∀ (lnk : List COLL_Link), ∀ l2 ∈ (COLL_reset_links e st c lnk).1,
        l2.status ≠ LinkStatus.UNUSED →
        (l2.status = LinkStatus.FLUID ↔ st.status l2.i = SiteStatus.FLUID))
    ∧ (∀ l : COLL_Link, l.status = LinkStatus.COLLOID →
        (linkEnterEffects e st c l).1.f l.j l.v 0
          = e.model.wv l.v * (1 + 3 * UTIL_dot_product
              (UTIL_fvector_add (UTIL_cross_product c.omega l.rb) c.v)
              (cvF e.model l.v))) := by
  refine ⟨?_, ?_, ?_⟩
  · intro l hl
    have hst := mem_reconstruct_new_links e st c l hl
    rw [hst]
    by_cases h : st.status l.i = SiteStatus.FLUID <;> simp [linkStatusFor, h]
  · intro lnk l2 hmem hne
    rw [reset_links_fst, List.mem_map] at hmem
    obtain ⟨l, _, hl⟩ := hmem
    subst hl
    by_cases hu : l.status = LinkStatus.UNUSED
    · unfold resetOneLink at hne
      rw [if_pos hu] at hne
      exact absurd hu hne
    · unfold resetOneLink
      rw [if_neg hu]
      by_cases h : st.status l.i = SiteStatus.FLUID <;> simp [linkStatusFor, h]
  · intro l hcol
    unfold linkEnterEffects
    rw [if_neg (by rw [hcol]; exact fun h => LinkStatus.noConfusion h)]
    unfold COLL_set_virtual_velocity
    rw [Store.setF_f]
    simp [UTIL_dot_product, cvF]

/-- The (fluid-site, solid-site, direction, status) tuple of a link. -/
def linkTuple (l : COLL_Link) : ℤ × ℤ × ℕ × LinkStatus := (l.i, l.j, l.v, l.status)

/-- The (fluid-site, solid-site, direction) identity of a link. -/
def linkTopo (l : COLL_Link) : ℤ × ℤ × ℕ := (l.i, l.j, l.v)

/-- Claim C5: resetting the link list produced by a full rebuild, on
the same occupancy snapshot, reproduces exactly the same list of
(fluid-site, solid-site, direction, status) tuples; and a reset never
adds, removes or reuses records — it preserves the record count and
every record's site pair and direction, for any link list. -/
theorem claim5_reset_matches_rebuild (e : Env) (st : Store) (c : Colloid)
    (lnk0 lnk : List COLL_Link) :
    (((COLL_reset_links e st c ((COLL_reconstruct_links e st c lnk0).1)).1).map linkTuple
      = ((COLL_reconstruct_links e st c lnk0).1).map linkTuple)
    ∧ ((COLL_reset_links e st c lnk).1).map linkTopo = lnk.map linkTopo
    ∧ ((COLL_reset_links e st c lnk).1).length = lnk.length := by
  refine ⟨?_, ?_, ?_⟩
  · rw [reset_links_fst, List.map_map]
    apply List.map_congr_left
    intro l hlL
    rw [reconstruct_links_fst] at hlL
    rcases mem_overlayLinks l _ _ hlL with h1 | h1
    · have hu := mem_map_setUnused l _ h1
      simp only [Function.comp_apply]
      unfold resetOneLink
      rw [if_pos hu]
    · have hst := mem_reconstruct_new_links e st c l h1
      have hnu := mem_reconstruct_new_links_not_unused e st c l h1
      simp only [Function.comp_apply, linkTuple]
      unfold resetOneLink
      rw [if_neg hnu]
      simp [hst]
  · rw [reset_links_fst, List.map_map]
    apply List.map_congr_left
    intro l _
    have ht := resetOneLink_topo e st.status (colloidLocalPosition e c) l
    simp [Function.comp_apply, linkTopo, ht.1, ht.2.1, ht.2.2]
  · rw [reset_links_fst, List.length_map]

theorem fvecListSum_append (A B : List FVector) :
    fvecListSum (A ++ B) = UTIL_fvector_add (fvecListSum A) (fvecListSum B) := by
  induction A with
  | nil =>
    show fvecListSum B = UTIL_fvector_add (fvecListSum []) (fvecListSum B)
    rw [show fvecListSum [] = UTIL_fvector_zero from rfl, UTIL_fvector_zero_add]
  | cons a t ih =>
    show UTIL_fvector_add a (fvecListSum (t ++ B))
      = UTIL_fvector_add (UTIL_fvector_add a (fvecListSum t)) (fvecListSum B)
    rw [ih, UTIL_fvector_add_assoc]

theorem fluidWeightSum_cons_pos (e : Env) (l : COLL_Link) (L : List COLL_Link)
    (hf : l.status = LinkStatus.FLUID) :
    fluidWeightSum e (l :: L) = e.model.wv l.v + fluidWeightSum e L := by
  simp [fluidWeightSum, fluidLinks, List.filter_cons, hf]

theorem fluidWeightSum_cons_neg (e : Env) (l : COLL_Link) (L : List COLL_Link)
    (hf : ¬l.status = LinkStatus.FLUID) :
    fluidWeightSum e (l :: L) = fluidWeightSum e L := by
  simp [fluidWeightSum, fluidLinks, List.filter_cons, hf]

theorem fluidCbarSum_cons_pos (e : Env) (l : COLL_Link) (L : List COLL_Link)
    (hf : l.status = LinkStatus.FLUID) :
    fluidCbarSum e (l :: L)
      = UTIL_fvector_add (fvecSmul (e.model.wv l.v) (cvF e.model l.v)) (fluidCbarSum e L) := by
  simp [fluidCbarSum, fluidLinks, List.filter_cons, hf, fvecListSum]

theorem fluidCbarSum_cons_neg (e : Env) (l : COLL_Link) (L : List COLL_Link)
    (hf : ¬l.status = LinkStatus.FLUID) :
    fluidCbarSum e (l :: L) = fluidCbarSum e L := by
  simp [fluidCbarSum, fluidLinks, List.filter_cons, hf]

theorem fluidRxcbarSum_cons_pos (e : Env) (l : COLL_Link) (L : List COLL_Link)
    (hf : l.status = LinkStatus.FLUID) :
    fluidRxcbarSum e (l :: L)
      = UTIL_fvector_add
          (fvecSmul (e.model.wv l.v) (UTIL_cross_product l.rb (cvF e.model l.v)))
          (fluidRxcbarSum e L) := by
  simp [fluidRxcbarSum, fluidLinks, List.filter_cons, hf, fvecListSum]

theorem fluidRxcbarSum_cons_neg (e : Env) (l : COLL_Link) (L : List COLL_Link)
    (hf : ¬l.status = LinkStatus.FLUID) :
    fluidRxcbarSum e (l :: L) = fluidRxcbarSum e L := by
  simp [fluidRxcbarSum, fluidLinks, List.filter_cons, hf]

theorem effects_fold_sums (e : Env) (L : List COLL_Link) :
    ∀ (st : Store) (c : Colloid),
      ((L.foldl (fun (sc : Store × Colloid) l => linkEnterEffects e sc.1 sc.2 l) (st, c)).2.sumw
          = c.sumw + fluidWeightSum e L)
      ∧ ((L.foldl (fun (sc : Store × Colloid) l => linkEnterEffects e sc.1 sc.2 l)
            (st, c)).2.cbar = UTIL_fvector_add c.cbar (fluidCbarSum e L))
      ∧ ((L.foldl (fun (sc : Store × Colloid) l => linkEnterEffects e sc.1 sc.2 l)
            (st, c)).2.rxcbar = UTIL_fvector_add c.rxcbar (fluidRxcbarSum e L)) := by
  induction L with
  | nil =>
    intro st c
    simp [fluidWeightSum, fluidCbarSum, fluidRxcbarSum, fluidLinks, fvecListSum,
      UTIL_fvector_add_zero]
  | cons l t ih =>
    intro st c
    simp only [List.foldl_cons]
    by_cases hf : l.status = LinkStatus.FLUID
    · have heq : linkEnterEffects e st c l = (st, COLL_link_mean_contrib e c l.v l.rb) := by
        unfold linkEnterEffects; rw [if_pos hf]
      rw [heq]
      have h3 := ih st (COLL_link_mean_contrib e c l.v l.rb)
      refine ⟨?_, ?_, ?_⟩
      · rw [h3.1, fluidWeightSum_cons_pos e l t hf]
        show c.sumw + e.model.wv l.v + fluidWeightSum e t
          = c.sumw + (e.model.wv l.v + fluidWeightSum e t)
        ring
      · rw [h3.2.1, fluidCbarSum_cons_pos e l t hf]
        exact UTIL_fvector_add_assoc _ _ _
      · rw [h3.2.2, fluidRxcbarSum_cons_pos e l t hf]
        exact UTIL_fvector_add_assoc _ _ _
    · have heq : linkEnterEffects e st c l
          = (COLL_set_virtual_velocity e st l.j l.v
              (UTIL_fvector_add (UTIL_cross_product c.omega l.rb) c.v), c) := by
        unfold linkEnterEffects; rw [if_neg hf]
      rw [heq]
      have h3 := ih (COLL_set_virtual_velocity e st l.j l.v
        (UTIL_fvector_add (UTIL_cross_product c.omega l.rb) c.v)) c
      rw [fluidWeightSum_cons_neg e l t hf, fluidCbarSum_cons_neg e l t hf,
        fluidRxcbarSum_cons_neg e l t hf]
      exact h3

theorem reset_links_cons_unused (e : Env) (st : Store) (c : Colloid) (l : COLL_Link)
    (ls : List COLL_Link) (hu : l.status = LinkStatus.UNUSED) :
    COLL_reset_links e st c (l :: ls)
      = (l :: (COLL_reset_links e st c ls).1, (COLL_reset_links e st c ls).2) := by
  conv_lhs => unfold COLL_reset_links
  rw [if_pos hu]

theorem reset_links_cons_active (e : Env) (st : Store) (c : Colloid) (l : COLL_Link)
    (ls : List COLL_Link) (hu : ¬l.status = LinkStatus.UNUSED) :
    COLL_reset_links e st c (l :: ls)
      = ((resetOneLink e st.status (colloidLocalPosition e c) l) ::
          (COLL_reset_links e
            (linkEnterEffects e st c
              (resetOneLink e st.status (colloidLocalPosition e c) l)).1
            (linkEnterEffects e st c
              (resetOneLink e st.status (colloidLocalPosition e c) l)).2 ls).1,
         (COLL_reset_links e
            (linkEnterEffects e st c
              (resetOneLink e st.status (colloidLocalPosition e c) l)).1
            (linkEnterEffects e st c
              (resetOneLink e st.status (colloidLocalPosition e c) l)).2 ls).2) := by
  conv_lhs => unfold COLL_reset_links
  rw [if_neg hu]

theorem reset_links_sums (e : Env) (lnk : List COLL_Link) :
    ∀ (st : Store) (c : Colloid),
      ((COLL_reset_links e st c lnk).2.2.sumw
        = c.sumw + fluidWeightSum e (COLL_reset_links e st c lnk).1)
      ∧ ((COLL_reset_links e st c lnk).2.2.cbar
        = UTIL_fvector_add c.cbar (fluidCbarSum e (COLL_reset_links e st c lnk).1))
      ∧ ((COLL_reset_links e st c lnk).2.2.rxcbar
        = UTIL_fvector_add c.rxcbar (fluidRxcbarSum e (COLL_reset_links e st c lnk).1)) := by
  induction lnk with
  | nil =>
    intro st c
    simp [COLL_reset_links, fluidWeightSum, fluidCbarSum, fluidRxcbarSum, fluidLinks,
      fvecListSum, UTIL_fvector_add_zero]
  | cons l ls ih =>
    intro st c
    by_cases hu : l.status = LinkStatus.UNUSED
    · rw [reset_links_cons_unused e st c l ls hu]
      have hnf : ¬l.status = LinkStatus.FLUID := by
        rw [hu]; exact fun h => LinkStatus.noConfusion h
      have h3 := ih st c
      refine ⟨?_, ?_, ?_⟩
      · rw [fluidWeightSum_cons_neg e l _ hnf]; exact h3.1
      · rw [fluidCbarSum_cons_neg e l _ hnf]; exact h3.2.1
      · rw [fluidRxcbarSum_cons_neg e l _ hnf]; exact h3.2.2
    · rw [reset_links_cons_active e st c l ls hu]
      by_cases hf : (resetOneLink e st.status (colloidLocalPosition e c) l).status
          = LinkStatus.FLUID
      · have heq : linkEnterEffects e st c
            (resetOneLink e st.status (colloidLocalPosition e c) l)
            = (st, COLL_link_mean_contrib e c
                (resetOneLink e st.status (colloidLocalPosition e c) l).v
                (resetOneLink e st.status (colloidLocalPosition e c) l).rb) := by
          unfold linkEnterEffects; rw [if_pos hf]
        rw [heq]
        have h3 := ih st (COLL_link_mean_contrib e c
          (resetOneLink e st.status (colloidLocalPosition e c) l).v
          (resetOneLink e st.status (colloidLocalPosition e c) l).rb)
        refine ⟨?_, ?_, ?_⟩
        · rw [h3.1, fluidWeightSum_cons_pos e _ _ hf]
          show c.sumw + e.model.wv _ + fluidWeightSum e _
            = c.sumw + (e.model.wv _ + fluidWeightSum e _)
          ring
        · rw [h3.2.1, fluidCbarSum_cons_pos e _ _ hf]
          exact UTIL_fvector_add_assoc _ _ _
        · rw [h3.2.2, fluidRxcbarSum_cons_pos e _ _ hf]
          exact UTIL_fvector_add_assoc _ _ _
      · have heq : linkEnterEffects e st c
            (resetOneLink e st.status (colloidLocalPosition e c) l)
            = (COLL_set_virtual_velocity e st
                (resetOneLink e st.status (colloidLocalPosition e c) l).j
                (resetOneLink e st.status (colloidLocalPosition e c) l).v
                (UTIL_fvector_add (UTIL_cross_product c.omega
                  (resetOneLink e st.status (colloidLocalPosition e c) l).rb) c.v), c) := by
          unfold linkEnterEffects; rw [if_neg hf]
        rw [heq]
        have h3 := ih (COLL_set_virtual_velocity e st
          (resetOneLink e st.status (colloidLocalPosition e c) l).j
          (resetOneLink e st.status (colloidLocalPosition e c) l).v
          (UTIL_fvector_add (UTIL_cross_product c.omega
            (resetOneLink e st.status (colloidLocalPosition e c) l).rb) c.v)) c
        rw [fluidWeightSum_cons_neg e _ _ hf, fluidCbarSum_cons_neg e _ _ hf,
          fluidRxcbarSum_cons_neg e _ _ hf]
        exact h3

theorem overlayLinks_eq_append :
    ∀ (a b : List COLL_Link), overlayLinks a b = b ++ a.drop b.length := by
  intro a b
  induction b generalizing a with
  | nil => rw [overlayLinks_nil]; simp
  | cons n ns ih =>
    cases a with
    | nil => rw [overlayLinks_nil_cons, ih]; simp
    | cons o os => rw [overlayLinks_cons_cons, ih]; simp

theorem fluidWeightSum_append (e : Env) (A B : List COLL_Link) :
    fluidWeightSum e (A ++ B) = fluidWeightSum e A + fluidWeightSum e B := by
  simp [fluidWeightSum, fluidLinks, List.filter_append]

theorem fluidCbarSum_append (e : Env) (A B : List COLL_Link) :
    fluidCbarSum e (A ++ B)
      = UTIL_fvector_add (fluidCbarSum e A) (fluidCbarSum e B) := by
  simp [fluidCbarSum, fluidLinks, List.filter_append, fvecListSum_append]

theorem fluidRxcbarSum_append (e : Env) (A B : List COLL_Link) :
    fluidRxcbarSum e (A ++ B)
      = UTIL_fvector_add (fluidRxcbarSum e A) (fluidRxcbarSum e B) := by
  simp [fluidRxcbarSum, fluidLinks, List.filter_append, fvecListSum_append]

theorem fluidLinks_eq_nil (L : List COLL_Link)
    (h : ∀ l ∈ L, ¬l.status = LinkStatus.FLUID) : fluidLinks L = [] := by
  simp only [fluidLinks, List.filter_eq_nil_iff]
  intro l hl
  simpa using h l hl

theorem fluid_sums_of_no_fluid (e : Env) (L : List COLL_Link)
    (h : ∀ l ∈ L, ¬l.status = LinkStatus.FLUID) :
    fluidWeightSum e L = 0 ∧ fluidCbarSum e L = UTIL_fvector_zero
    ∧ fluidRxcbarSum e L = UTIL_fvector_zero := by
  refine ⟨?_, ?_, ?_⟩ <;>
    simp [fluidWeightSum, fluidCbarSum, fluidRxcbarSum, fluidLinks_eq_nil L h, fvecListSum]

theorem mem_wall_new_links_status (e : Env) (st : Store) (c : Colloid) (l : COLL_Link)
    (hl : l ∈ wall_new_links e st c) : l.status = LinkStatus.BOUNDARY := by
  unfold wall_new_links at hl
  rw [List.mem_flatMap] at hl
  obtain ⟨v, _, hv⟩ := hl
  by_cases hown : st.collMap (get_site_index e.dom v.x v.y v.z) = some c.id
  · rw [if_pos hown, List.mem_filterMap] at hv
    obtain ⟨p, _, hp⟩ := hv
    by_cases hb : st.status (get_site_index e.dom (v.x + (e.model.cv p).x)
        (v.y + (e.model.cv p).y) (v.z + (e.model.cv p).z)) = SiteStatus.BOUNDARY
    · rw [if_pos hb, Option.some.injEq] at hp
      subst hp
      rfl
    · rw [if_neg hb] at hp
      cases hp
  · simp [hown] at hv

theorem splitAtFirstUnused_of_append (A B : List COLL_Link)
    (hA : ∀ l ∈ A, ¬l.status = LinkStatus.UNUSED)
    (hB : ∀ l ∈ B, l.status = LinkStatus.UNUSED) :
    splitAtFirstUnused (A ++ B) = (A, B) := by
  induction A with
  | nil =>
    cases B with
    | nil => rfl
    | cons b bs =>
      show splitAtFirstUnused (b :: bs) = ([], b :: bs)
      unfold splitAtFirstUnused
      rw [if_pos (hB b (List.mem_cons_self b bs))]
  | cons a as ih =>
    show splitAtFirstUnused (a :: (as ++ B)) = (a :: as, B)
    unfold splitAtFirstUnused
    rw [if_neg (hA a (List.mem_cons_self a as))]
    rw [ih (fun l hl => hA l (List.mem_cons_of_mem a hl))]

theorem mem_drop_setUnused (lnk : List COLL_Link) (n : ℕ) (l : COLL_Link)
    (hl : l ∈ (lnk.map COLL_Link.setUnused).drop n) : l.status = LinkStatus.UNUSED :=
  mem_map_setUnused l lnk (List.mem_of_mem_drop hl)

theorem reconstruct_links_snd (e : Env) (st : Store) (c : Colloid) (lnk : List COLL_Link) :
    (COLL_reconstruct_links e st c lnk).2
      = (COLL_reconstruct_new_links e st c).foldl
          (fun (sc : Store × Colloid) l => linkEnterEffects e sc.1 sc.2 l) (st, c) := rfl

theorem fluid_sums_reconstruct (e : Env) (st : Store) (c : Colloid) (lnk : List COLL_Link) :
    fluidWeightSum e (COLL_reconstruct_links e st c lnk).1
      = fluidWeightSum e (COLL_reconstruct_new_links e st c)
    ∧ fluidCbarSum e (COLL_reconstruct_links e st c lnk).1
      = fluidCbarSum e (COLL_reconstruct_new_links e st c)
    ∧ fluidRxcbarSum e (COLL_reconstruct_links e st c lnk).1
      = fluidRxcbarSum e (COLL_reconstruct_new_links e st c) := by
  rw [reconstruct_links_fst, overlayLinks_eq_append]
  have hdrop := fluid_sums_of_no_fluid e
    ((lnk.map COLL_Link.setUnused).drop (COLL_reconstruct_new_links e st c).length)
    (fun l hl => by
      rw [mem_drop_setUnused lnk _ l hl]
      exact fun h => LinkStatus.noConfusion h)
  refine ⟨?_, ?_, ?_⟩
  · rw [fluidWeightSum_append, hdrop.1]; ring
  · rw [fluidCbarSum_append, hdrop.2.1, UTIL_fvector_add_zero]
  · rw [fluidRxcbarSum_append, hdrop.2.2, UTIL_fvector_add_zero]

theorem fluid_sums_wall_of_rebuild (e : Env) (st st2 : Store) (c c2 : Colloid)
    (lnk L2 : List COLL_Link)
    (hw : reconstruct_wall_links e st2 c2 (COLL_reconstruct_links e st c lnk).1
      = Except.ok L2) :
    fluidWeightSum e L2 = fluidWeightSum e (COLL_reconstruct_links e st c lnk).1
    ∧ fluidCbarSum e L2 = fluidCbarSum e (COLL_reconstruct_links e st c lnk).1
    ∧ fluidRxcbarSum e L2 = fluidRxcbarSum e (COLL_reconstruct_links e st c lnk).1 := by
  have hL1 : (COLL_reconstruct_links e st c lnk).1
      = COLL_reconstruct_new_links e st c
        ++ (lnk.map COLL_Link.setUnused).drop (COLL_reconstruct_new_links e st c).length := by
    rw [reconstruct_links_fst, overlayLinks_eq_append]
  have hsplit : splitAtFirstUnused (COLL_reconstruct_links e st c lnk).1
      = (COLL_reconstruct_new_links e st c,
         (lnk.map COLL_Link.setUnused).drop (COLL_reconstruct_new_links e st c).length) := by
    rw [hL1]
    exact splitAtFirstUnused_of_append _ _
      (fun l hl => mem_reconstruct_new_links_not_unused e st c l hl)
      (fun l hl => mem_drop_setUnused lnk _ l hl)
  unfold reconstruct_wall_links at hw
  by_cases hcond : ((COLL_reconstruct_links e st c lnk).1 = []
      ∧ ¬wall_new_links e st2 c2 = [])
  · rw [if_pos hcond] at hw
    cases hw
  · rw [if_neg hcond] at hw
    rw [Except.ok.injEq] at hw
    rw [hsplit] at hw
    have hL2 : L2 = COLL_reconstruct_new_links e st c
        ++ (wall_new_links e st2 c2
            ++ ((lnk.map COLL_Link.setUnused).drop
                (COLL_reconstruct_new_links e st c).length).drop
              (wall_new_links e st2 c2).length) := by
      rw [← hw]
      show COLL_reconstruct_new_links e st c
          ++ overlayLinks ((lnk.map COLL_Link.setUnused).drop
              (COLL_reconstruct_new_links e st c).length) (wall_new_links e st2 c2) = _
      rw [overlayLinks_eq_append]
    have hwall0 := fluid_sums_of_no_fluid e (wall_new_links e st2 c2)
      (fun l hl => by
        rw [mem_wall_new_links_status e st2 c2 l hl]
        exact fun h => LinkStatus.noConfusion h)
    have hdrop0 := fluid_sums_of_no_fluid e
      (((lnk.map COLL_Link.setUnused).drop
          (COLL_reconstruct_new_links e st c).length).drop
        (wall_new_links e st2 c2).length)
      (fun l hl => by
        rw [mem_drop_setUnused lnk _ l (List.mem_of_mem_drop hl)]
        exact fun h => LinkStatus.noConfusion h)
    have hdrop1 := fluid_sums_of_no_fluid e
      ((lnk.map COLL_Link.setUnused).drop (COLL_reconstruct_new_links e st c).length)
      (fun l hl => by
        rw [mem_drop_setUnused lnk _ l hl]
        exact fun h => LinkStatus.noConfusion h)
    refine ⟨?_, ?_, ?_⟩
    · rw [hL2, hL1, fluidWeightSum_append, fluidWeightSum_append, fluidWeightSum_append,
        hwall0.1, hdrop0.1, hdrop1.1]
      ring
    · rw [hL2, hL1, fluidCbarSum_append, fluidCbarSum_append, fluidCbarSum_append,
        hwall0.2.1, hdrop0.2.1, hdrop1.2.1]
      simp only [UTIL_fvector_add_zero]
    · rw [hL2, hL1, fluidRxcbarSum_append, fluidRxcbarSum_append, fluidRxcbarSum_append,
        hwall0.2.2, hdrop0.2.2, hdrop1.2.2]
      simp only [UTIL_fvector_add_zero]


theorem update_links_one_reset_eq (e : Env) (st : Store) (c : Colloid)
    (lnk : List COLL_Link) (hrb : c.rebuild = false) :
    COLL_update_links_one e st c lnk
      = Except.ok ((COLL_reset_links e st (COLL_update_links_zero c) lnk).1,
          (COLL_reset_links e st (COLL_update_links_zero c) lnk).2.1,
          { (COLL_reset_links e st (COLL_update_links_zero c) lnk).2.2 with
            rebuild := false }) := by
  unfold COLL_update_links_one
  rw [hrb]
  rfl

theorem update_links_one_rebuild_nowall_eq (e : Env) (st : Store) (c : Colloid)
    (lnk : List COLL_Link) (hrb : c.rebuild = true) (hbp : e.boundariesPresent = false) :
    COLL_update_links_one e st c lnk
      = Except.ok ((COLL_reconstruct_links e st (COLL_update_links_zero c) lnk).1,
          (COLL_reconstruct_links e st (COLL_update_links_zero c) lnk).2.1,
          { (COLL_reconstruct_links e st (COLL_update_links_zero c) lnk).2.2 with
            rebuild := false }) := by
  unfold COLL_update_links_one
  rw [hrb, hbp]
  rfl

theorem update_links_one_rebuild_wall_eq (e : Env) (st : Store) (c : Colloid)
    (lnk : List COLL_Link) (hrb : c.rebuild = true) (hbp : e.boundariesPresent = true) :
    COLL_update_links_one e st c lnk
      = (match reconstruct_wall_links e
            (COLL_reconstruct_links e st (COLL_update_links_zero c) lnk).2.1
            (COLL_reconstruct_links e st (COLL_update_links_zero c) lnk).2.2
            (COLL_reconstruct_links e st (COLL_update_links_zero c) lnk).1 with
         | Except.error s => Except.error s
         | Except.ok L2 => Except.ok (L2,
             (COLL_reconstruct_links e st (COLL_update_links_zero c) lnk).2.1,
             { (COLL_reconstruct_links e st (COLL_update_links_zero c) lnk).2.2 with
               rebuild := false })) := by
  unfold COLL_update_links_one
  rw [hrb, hbp]
  rfl

/-- Claim C6: whenever the per-colloid link update succeeds, the
colloid's weight sum equals the quadrature-weight sum over exactly the
`FLUID`-status links of the resulting list, its first-moment sum the
weight-times-direction-vector sum, and its cross-moment sum the
weight-times-(boundary vector × direction vector) sum; `COLLOID` and
`BOUNDARY` links contribute nothing, and the three accumulators are
zeroed before the builder runs (the result is independent of their
incoming values). -/
theorem claim6_moment_sums (e : Env) (st : Store) (c : Colloid) (lnk L : List COLL_Link)
    (st2 : Store) (c2 : Colloid)
    (h : COLL_update_links_one e st c lnk = Except.ok (L, st2, c2)) :
    c2.sumw = fluidWeightSum e L
    ∧ c2.cbar = fluidCbarSum e L
    ∧ c2.rxcbar = fluidRxcbarSum e L := by
  cases hrb : c.rebuild with
  | false =>
    rw [update_links_one_reset_eq e st c lnk hrb] at h
    rw [Except.ok.injEq, Prod.mk.injEq, Prod.mk.injEq] at h
    obtain ⟨hL, _, hc2⟩ := h
    have hsums := reset_links_sums e lnk st (COLL_update_links_zero c)
    have hz : (COLL_update_links_zero c).sumw = 0 := rfl
    have hzc : (COLL_update_links_zero c).cbar = UTIL_fvector_zero := rfl
    have hzr : (COLL_update_links_zero c).rxcbar = UTIL_fvector_zero := rfl
    refine ⟨?_, ?_, ?_⟩
    · rw [← hc2]
      show (COLL_reset_links e st (COLL_update_links_zero c) lnk).2.2.sumw
        = fluidWeightSum e L
      rw [hsums.1, hz, hL]
      ring
    · rw [← hc2]
      show (COLL_reset_links e st (COLL_update_links_zero c) lnk).2.2.cbar
        = fluidCbarSum e L
      rw [hsums.2.1, hzc, hL, UTIL_fvector_zero_add]
    · rw [← hc2]
      show (COLL_reset_links e st (COLL_update_links_zero c) lnk).2.2.rxcbar
        = fluidRxcbarSum e L
      rw [hsums.2.2, hzr, hL, UTIL_fvector_zero_add]
  | true =>
    have hsums := effects_fold_sums e
      (COLL_reconstruct_new_links e st (COLL_update_links_zero c)) st
      (COLL_update_links_zero c)
    have hrec := fluid_sums_reconstruct e st (COLL_update_links_zero c) lnk
    have hz : (COLL_update_links_zero c).sumw = 0 := rfl
    have hzc : (COLL_update_links_zero c).cbar = UTIL_fvector_zero := rfl
    have hzr : (COLL_update_links_zero c).rxcbar = UTIL_fvector_zero := rfl
    cases hbp : e.boundariesPresent with
    | false =>
      rw [update_links_one_rebuild_nowall_eq e st c lnk hrb hbp] at h
      rw [Except.ok.injEq, Prod.mk.injEq, Prod.mk.injEq] at h
      obtain ⟨hL, _, hc2⟩ := h
      refine ⟨?_, ?_, ?_⟩
      · rw [← hc2]
        show (COLL_reconstruct_links e st (COLL_update_links_zero c) lnk).2.2.sumw
          = fluidWeightSum e L
        rw [reconstruct_links_snd, hsums.1, hz, ← hL, hrec.1]
        ring
      · rw [← hc2]
        show (COLL_reconstruct_links e st (COLL_update_links_zero c) lnk).2.2.cbar
          = fluidCbarSum e L
        rw [reconstruct_links_snd, hsums.2.1, hzc, ← hL, hrec.2.1, UTIL_fvector_zero_add]
      · rw [← hc2]
        show (COLL_reconstruct_links e st (COLL_update_links_zero c) lnk).2.2.rxcbar
          = fluidRxcbarSum e L
        rw [reconstruct_links_snd, hsums.2.2, hzr, ← hL, hrec.2.2, UTIL_fvector_zero_add]
    | true =>
      rw [update_links_one_rebuild_wall_eq e st c lnk hrb hbp] at h
      cases hwall : reconstruct_wall_links e
          (COLL_reconstruct_links e st (COLL_update_links_zero c) lnk).2.1
          (COLL_reconstruct_links e st (COLL_update_links_zero c) lnk).2.2
          (COLL_reconstruct_links e st (COLL_update_links_zero c) lnk).1 with
      | error s => rw [hwall] at h; cases h
      | ok L2 =>
        rw [hwall] at h
        rw [Except.ok.injEq, Prod.mk.injEq, Prod.mk.injEq] at h
        obtain ⟨hL, _, hc2⟩ := h
        have hwallsums := fluid_sums_wall_of_rebuild e st _ _ _ lnk L2 hwall
        refine ⟨?_, ?_, ?_⟩
        · rw [← hc2]
          show (COLL_reconstruct_links e st (COLL_update_links_zero c) lnk).2.2.sumw
            = fluidWeightSum e L
          rw [reconstruct_links_snd, hsums.1, hz, ← hL, hwallsums.1, hrec.1]
          ring
        · rw [← hc2]
          show (COLL_reconstruct_links e st (COLL_update_links_zero c) lnk).2.2.cbar
            = fluidCbarSum e L
          rw [reconstruct_links_snd, hsums.2.1, hzc, ← hL, hwallsums.2.1, hrec.2.1,
            UTIL_fvector_zero_add]
        · rw [← hc2]
          show (COLL_reconstruct_links e st (COLL_update_links_zero c) lnk).2.2.rxcbar
            = fluidRxcbarSum e L
          rw [reconstruct_links_snd, hsums.2.2, hzr, ← hL, hwallsums.2.2, hrec.2.2,
            UTIL_fvector_zero_add]

/-- Claim C10: when the wall link builder must append (its link stream
is nonempty) while the particle's link list is empty, it terminates
fatally; consequently a successful wall pass that appended records can
only have started from a nonempty link list. -/
theorem claim10_wall_append_needs_links (e : Env) (st : Store) (c : Colloid) :
    (wall_new_links e st c ≠ [] →
      reconstruct_wall_links e st c [] = Except.error "No links in list")
    ∧ (∀ (lnk L2 : List COLL_Link),
        reconstruct_wall_links e st c lnk = Except.ok L2 →
        lnk.length < L2.length → lnk ≠ []) := by
  constructor
  · intro hne
    unfold reconstruct_wall_links
    rw [if_pos ⟨rfl, hne⟩]
  · intro lnk L2 hok hlen hnil
    subst hnil
    unfold reconstruct_wall_links at hok
    by_cases hw : wall_new_links e st c = []
    · rw [if_neg (fun hc => hc.2 hw)] at hok
      rw [Except.ok.injEq] at hok
      rw [← hok, hw] at hlen
      simp [splitAtFirstUnused, overlayLinks] at hlen
    · rw [if_pos ⟨rfl, hw⟩] at hok
      cases hok

theorem exBox_centre1 : COLL_reconstruct_box exEnv exColloidBase = ⟨1, 2, 1, 1, 1, 1⟩ := by
  unfold COLL_reconstruct_box colloidLocalPosition imax imin
  have h85 : Int.ceil ((8 : ℚ) / 5) = 2 := by norm_num [Int.ceil_eq_iff]
  norm_num [exEnv, exColloidBase, SiteBox.mk.injEq, h85]

/-- The colloid of the link-rebuild counterexample: centred on site
(2,1,1). -/
def c4Colloid : Colloid := { exColloidBase with r := ⟨2, 1, 1⟩ }

theorem exBox_centre2 : COLL_reconstruct_box exEnv c4Colloid = ⟨1, 2, 1, 1, 1, 1⟩ := by
  unfold COLL_reconstruct_box colloidLocalPosition imax imin
  have h85 : Int.ceil ((8 : ℚ) / 5) = 2 := by norm_num [Int.ceil_eq_iff]
  have h135 : Int.ceil ((13 : ℚ) / 5) = 3 := by norm_num [Int.ceil_eq_iff]
  norm_num [exEnv, c4Colloid, exColloidBase, SiteBox.mk.injEq, h85, h135]

theorem exBox_sites : (SiteBox.sites ⟨1, 2, 1, 1, 1, 1⟩)
    = [⟨1, 1, 1⟩, ⟨2, 1, 1⟩] := by decide

/-- Store for the link-rebuild counterexample: the colloid (id 1) owns
site 22 = (2,1,1) in the current snapshot; the outside site
13 = (1,1,1) is unowned but carries `BOUNDARY` site status. -/
def c4Store : Store :=
  { status := fun n => if n = 13 then SiteStatus.BOUNDARY else SiteStatus.FLUID
    collMap := fun n => if n = 22 then some 1 else none
    collOld := fun _ => none
    f := fun _ _ _ => 0
    phiOp := fun _ _ => 0
    colloids := fun _ => exColloidBase }

theorem c4_new_links_eval : COLL_reconstruct_new_links exEnv c4Store c4Colloid
    = [⟨13, 22, 1, ⟨-(1/2), 0, 0⟩, LinkStatus.COLLOID⟩] := by
  unfold COLL_reconstruct_new_links
  rw [exBox_centre2, exBox_sites]
  have h13 : c4Store.collMap 13 = none := rfl
  have h22 : c4Store.collMap 22 = some 1 := rfl
  have hs13 : c4Store.status 13 = SiteStatus.BOUNDARY := rfl
  norm_num +decide [velDirs, exEnv, exModel, c4Colloid, exColloidBase, colloidLocalPosition,
    COLL_fvector_separation, sepComponent, COLL_fcoords_from_ijk, linkBoundaryVector,
    linkStatusFor, get_site_index, List.range_succ, h13, h22, hs13,
    List.filterMap_cons, List.filterMap_nil,
    COLL_Link.mk.injEq, FVector.mk.injEq]

/-- Claim C4 counterexample: the rebuild creates a link whose outside
site is unowned in the occupancy snapshot and whose status is
nevertheless `COLLOID` (the outside site is a `BOUNDARY` wall site), so
FLUID-status is not equivalent to the outside site being unowned. -/
theorem claim4_counterexample :
    ∃ l ∈ COLL_reconstruct_new_links exEnv c4Store c4Colloid,
      c4Store.collMap l.i = none ∧ l.status = LinkStatus.COLLOID := by
  refine ⟨⟨13, 22, 1, ⟨-(1/2), 0, 0⟩, LinkStatus.COLLOID⟩, ?_, rfl, rfl⟩
  rw [c4_new_links_eval]
  exact List.mem_singleton.mpr rfl

theorem c4_reset_links_eval :
    (COLL_reset_links exEnv c4Store c4Colloid
        [⟨13, 22, 1, ⟨-(1/2), 0, 0⟩, LinkStatus.COLLOID⟩]).1
      = [⟨13, 22, 1, ⟨-(1/2), 0, 0⟩, LinkStatus.COLLOID⟩] := by
  rw [reset_links_fst]
  have hs13 : c4Store.status 13 = SiteStatus.BOUNDARY := rfl
  norm_num +decide [resetOneLink, linkStatusFor, linkBoundaryVector, COM_index2coord,
    COLL_fcoords_from_ijk, COLL_fvector_separation, sepComponent, colloidLocalPosition,
    exEnv, exModel, c4Colloid, exColloidBase, hs13, COLL_Link.mk.injEq, FVector.mk.injEq]

/-- Witness for claim C4's amended theorem: a concrete link created by
the rebuild, the same record refreshed by a reset pass, and the
concrete per-link virtual-distribution write. -/
theorem claim4_witness :
    ((⟨13, 22, 1, ⟨-(1/2), 0, 0⟩, LinkStatus.COLLOID⟩ : COLL_Link)
        ∈ COLL_reconstruct_new_links exEnv c4Store c4Colloid
      ∧ ((⟨13, 22, 1, ⟨-(1/2), 0, 0⟩, LinkStatus.COLLOID⟩ : COLL_Link).status
            = LinkStatus.FLUID
          ↔ c4Store.status (13 : ℤ) = SiteStatus.FLUID))
    ∧ ((⟨13, 22, 1, ⟨-(1/2), 0, 0⟩, LinkStatus.COLLOID⟩ : COLL_Link)
        ∈ (COLL_reset_links exEnv c4Store c4Colloid
            [⟨13, 22, 1, ⟨-(1/2), 0, 0⟩, LinkStatus.COLLOID⟩]).1
      ∧ (⟨13, 22, 1, ⟨-(1/2), 0, 0⟩, LinkStatus.COLLOID⟩ : COLL_Link).status
          ≠ LinkStatus.UNUSED
      ∧ ((⟨13, 22, 1, ⟨-(1/2), 0, 0⟩, LinkStatus.COLLOID⟩ : COLL_Link).status
            = LinkStatus.FLUID
          ↔ c4Store.status (13 : ℤ) = SiteStatus.FLUID))
    ∧ ((⟨13, 22, 1, ⟨-(1/2), 0, 0⟩, LinkStatus.COLLOID⟩ : COLL_Link).status
          = LinkStatus.COLLOID
      ∧ (linkEnterEffects exEnv c4Store c4Colloid
            ⟨13, 22, 1, ⟨-(1/2), 0, 0⟩, LinkStatus.COLLOID⟩).1.f 22 1 0
          = exEnv.model.wv 1 * (1 + 3 * UTIL_dot_product
              (UTIL_fvector_add
                (UTIL_cross_product c4Colloid.omega ⟨-(1/2), 0, 0⟩) c4Colloid.v)
              (cvF exEnv.model 1))) := by
  have hmem : (⟨13, 22, 1, ⟨-(1/2), 0, 0⟩, LinkStatus.COLLOID⟩ : COLL_Link)
      ∈ COLL_reconstruct_new_links exEnv c4Store c4Colloid := by
    rw [c4_new_links_eval]
    exact List.mem_singleton.mpr rfl
  have hmemr : (⟨13, 22, 1, ⟨-(1/2), 0, 0⟩, LinkStatus.COLLOID⟩ : COLL_Link)
      ∈ (COLL_reset_links exEnv c4Store c4Colloid
          [⟨13, 22, 1, ⟨-(1/2), 0, 0⟩, LinkStatus.COLLOID⟩]).1 := by
    rw [c4_reset_links_eval]
    exact List.mem_singleton.mpr rfl
  have h := claim4_link_status_and_virtual exEnv c4Store c4Colloid
  exact ⟨⟨hmem, h.1 _ hmem⟩,
    ⟨hmemr, by decide, h.2.1 _ _ hmemr (by decide)⟩,
    ⟨rfl, h.2.2 _ rfl⟩⟩

/-- Store for the wall-link scenario: the colloid (id 1) owns site
13 = (1,1,1); the halo site 22 = (2,1,1) is a `BOUNDARY` wall site. -/
def wallStore : Store :=
  { status := fun n => if n = 22 then SiteStatus.BOUNDARY else SiteStatus.FLUID
    collMap := fun n => if n = 13 then some 1 else none
    collOld := fun _ => none
    f := fun _ _ _ => 0
    phiOp := fun _ _ => 0
    colloids := fun _ => exColloidBase }

theorem wall_new_links_eval : wall_new_links exEnv wallStore exColloidBase
    = [⟨22, 13, 1, ⟨1 / 2, 0, 0⟩, LinkStatus.BOUNDARY⟩] := by
  unfold wall_new_links
  rw [exBox_centre1, exBox_sites]
  have h13 : wallStore.collMap 13 = some 1 := rfl
  have h22 : wallStore.collMap 22 = none := rfl
  have hs22 : wallStore.status 22 = SiteStatus.BOUNDARY := rfl
  norm_num +decide [velDirs, exEnv, exModel, exColloidBase, colloidLocalPosition,
    COLL_fvector_separation, sepComponent, COLL_fcoords_from_ijk, linkBoundaryVector,
    get_site_index, List.range_succ, h13, h22, hs22,
    List.filterMap_cons, List.filterMap_nil,
    COLL_Link.mk.injEq, FVector.mk.injEq]

/-- Witness for claim C10 at the concrete wall scenario: the wall link
stream is nonempty and the builder run from an empty link list is
fatal. -/
theorem claim10_witness :
    wall_new_links exEnv wallStore exColloidBase ≠ []
    ∧ reconstruct_wall_links exEnv wallStore exColloidBase []
        = Except.error "No links in list" := by
  have hne : wall_new_links exEnv wallStore exColloidBase ≠ [] := by
    rw [wall_new_links_eval]
    exact fun h => List.noConfusion h
  exact ⟨hne, (claim10_wall_append_needs_links exEnv wallStore exColloidBase).1 hne⟩

theorem update_map_colloid_collMap (e : Env) (c : Colloid) (n : ℤ) :
    ∀ st : Store, (COLL_update_map_colloid e st c).collMap n
      = if n ∈ claimedIndices e c then some c.id else st.collMap n := by
  unfold COLL_update_map_colloid claimedIndices
  generalize (COLL_update_map_box e c).sites = L
  induction L with
  | nil => intro st; simp
  | cons v t ih =>
    intro st
    simp only [List.foldl_cons, List.filter_cons]
    by_cases hv : mapInsideTest e c v
    · rw [if_pos hv, if_pos hv, ih]
      simp only [List.map_cons, List.mem_cons]
      by_cases h2 : n ∈ List.map (fun v => get_site_index e.dom v.x v.y v.z)
          (List.filter (mapInsideTest e c) t)
      · rw [if_pos h2, if_pos (Or.inr h2)]
      · rw [if_neg h2]
        by_cases h1 : n = get_site_index e.dom v.x v.y v.z
        · rw [if_pos (Or.inl h1)]
          simp [Store.setStatus_collMap, Store.setCollMap_collMap, h1]
        · rw [if_neg (fun hc => hc.elim h1 h2)]
          simp [Store.setStatus_collMap, Store.setCollMap_collMap, h1]
    · rw [if_neg hv, if_neg hv, ih]

theorem update_map_colloid_status (e : Env) (c : Colloid) (n : ℤ) :
    ∀ st : Store, (COLL_update_map_colloid e st c).status n
      = if n ∈ claimedIndices e c then SiteStatus.COLLOID else st.status n := by
  unfold COLL_update_map_colloid claimedIndices
  generalize (COLL_update_map_box e c).sites = L
  induction L with
  | nil => intro st; simp
  | cons v t ih =>
    intro st
    simp only [List.foldl_cons, List.filter_cons]
    by_cases hv : mapInsideTest e c v
    · rw [if_pos hv, if_pos hv, ih]
      simp only [List.map_cons, List.mem_cons]
      by_cases h2 : n ∈ List.map (fun v => get_site_index e.dom v.x v.y v.z)
          (List.filter (mapInsideTest e c) t)
      · rw [if_pos h2, if_pos (Or.inr h2)]
      · rw [if_neg h2]
        by_cases h1 : n = get_site_index e.dom v.x v.y v.z
        · rw [if_pos (Or.inl h1)]
          simp [Store.setStatus_status, Store.setCollMap_collMap, h1]
        · rw [if_neg (fun hc => hc.elim h1 h2)]
          simp [Store.setStatus_status, Store.setCollMap_status, h1]
    · rw [if_neg hv, if_neg hv, ih]

theorem update_map_fold_collMap (e : Env) (cs : List Colloid) :
    ∀ (st : Store) (n : ℤ) (a : ℕ),
      (∀ c2 ∈ cs, n ∈ claimedIndices e c2 → c2.id = a) →
      ((∃ c2 ∈ cs, n ∈ claimedIndices e c2) →
        (cs.foldl (COLL_update_map_colloid e) st).collMap n = some a)
      ∧ ((∀ c2 ∈ cs, n ∉ claimedIndices e c2) →
        (cs.foldl (COLL_update_map_colloid e) st).collMap n = st.collMap n) := by
  induction cs with
  | nil =>
    intro st n a _
    exact ⟨fun ⟨c2, hc2, _⟩ => absurd hc2 (List.not_mem_nil c2), fun _ => rfl⟩
  | cons c cs ih =>
    intro st n a h
    simp only [List.foldl_cons]
    have ih2 := ih (COLL_update_map_colloid e st c) n a
      (fun c2 hc2 => h c2 (List.mem_cons_of_mem c hc2))
    constructor
    · rintro ⟨c2, hc2, hclaim⟩
      rcases List.mem_cons.mp hc2 with rfl | hc2t
      · by_cases hrest : ∃ c3 ∈ cs, n ∈ claimedIndices e c3
        · exact ih2.1 hrest
        · push_neg at hrest
          rw [ih2.2 hrest, update_map_colloid_collMap, if_pos hclaim,
            h c2 (List.mem_cons_self c2 cs) hclaim]
      · exact ih2.1 ⟨c2, hc2t, hclaim⟩
    · intro hnone
      rw [ih2.2 (fun c2 hc2 => hnone c2 (List.mem_cons_of_mem c hc2)),
        update_map_colloid_collMap, if_neg (hnone c (List.mem_cons_self c cs))]

theorem update_map_fold_status_preserved (e : Env) (cs : List Colloid) :
    ∀ (st : Store) (n : ℤ),
      (∀ c2 ∈ cs, n ∉ claimedIndices e c2) →
      (cs.foldl (COLL_update_map_colloid e) st).status n = st.status n := by
  induction cs with
  | nil => intro st n _; rfl
  | cons c cs ih =>
    intro st n hnone
    simp only [List.foldl_cons]
    rw [ih _ n (fun c2 hc2 => hnone c2 (List.mem_cons_of_mem c hc2)),
      update_map_colloid_status, if_neg (hnone c (List.mem_cons_self c cs))]

/-- Claim C7 (amended): the claiming pass performs no assertion — a
later claimant silently overwrites an earlier one — but when a site's
claimants all share one particle (in particular when no two particles
overlap), the final snapshot maps the site to exactly that particle. -/
theorem claim7_unique_claimant_owns (e : Env) (st : Store) (cs : List Colloid)
    (c : Colloid) (n : ℤ) (hc : c ∈ cs) (hclaim : n ∈ claimedIndices e c)
    (huniq : ∀ c2 ∈ cs, n ∈ claimedIndices e c2 → c2.id = c.id) :
    (COLL_update_map e st cs).collMap n = some c.id := by
  unfold COLL_update_map
  exact (update_map_fold_collMap e cs _ n c.id huniq).1 ⟨c, hc, hclaim⟩

theorem map_reset_status_cases (e : Env) (n : ℤ) :
    ∀ st : Store,
      (COLL_update_map_reset e st).status n = st.status n
      ∨ (st.status n = SiteStatus.COLLOID
          ∧ (COLL_update_map_reset e st).status n = SiteStatus.FLUID) := by
  unfold COLL_update_map_reset
  generalize (extendedBox e.dom).sites = L
  induction L with
  | nil => intro st; exact Or.inl rfl
  | cons v t ih =>
    intro st
    simp only [List.foldl_cons]
    have hstep : (mapResetOne e st v).status n = st.status n
        ∨ (st.status n = SiteStatus.COLLOID
            ∧ (mapResetOne e st v).status n = SiteStatus.FLUID) := by
      unfold mapResetOne
      by_cases hc : st.status (get_site_index e.dom v.x v.y v.z) = SiteStatus.COLLOID
      · rw [if_pos hc]
        by_cases hn : n = get_site_index e.dom v.x v.y v.z
        · right
          refine ⟨by rw [hn]; exact hc, ?_⟩
          simp [Store.setStatus_status, hn]
        · left
          simp [Store.setStatus_status, hn]
      · rw [if_neg hc]
        exact Or.inl rfl
    rcases ih (mapResetOne e st v) with h1 | ⟨h1, h2⟩
    · rcases hstep with h3 | ⟨h3, h4⟩
      · exact Or.inl (by rw [h1, h3])
      · exact Or.inr ⟨h3, by rw [h1, h4]⟩
    · rcases hstep with h3 | ⟨h3, h4⟩
      · rw [h3] at h1
        exact Or.inr ⟨h1, h2⟩
      · rw [h4] at h1
        exact absurd h1 (fun hx => SiteStatus.noConfusion hx)

/-- Claim C9 (amended): the status-reset phase of the occupancy rebuild
changes a site only from `COLLOID` to `FLUID` (so it never touches a
`BOUNDARY` site), but the subsequent claiming phase overwrites the
status of every claimed site with `COLLOID` regardless of its prior
value — so a `BOUNDARY` (static wall) site is preserved by the full
rebuild exactly when no particle claims it. -/
theorem claim9_reset_only_colloid_and_wall_preserved_if_unclaimed (e : Env) (st : Store)
    (cs : List Colloid) (n : ℤ) :
    ((COLL_update_map_reset e st).status n = st.status n
      ∨ (st.status n = SiteStatus.COLLOID
          ∧ (COLL_update_map_reset e st).status n = SiteStatus.FLUID))
    ∧ (st.status n = SiteStatus.BOUNDARY →
        (∀ c2 ∈ cs, n ∉ claimedIndices e c2) →
        (COLL_update_map e st cs).status n = SiteStatus.BOUNDARY) := by
  constructor
  · exact map_reset_status_cases e n st
  · intro hb hnc
    unfold COLL_update_map
    rw [update_map_fold_status_preserved e cs _ n hnc]
    show (COLL_update_map_reset e st).status n = SiteStatus.BOUNDARY
    rcases map_reset_status_cases e n st with h | ⟨h1, _⟩
    · rw [h, hb]
    · rw [hb] at h1
      exact absurd h1 (fun hx => SiteStatus.noConfusion hx)

/-- A 1×1×1 domain with no halo (so site (1,1,1) has flat index 0). -/
def env0 : Env := { exEnv with dom := { nx := 1, ny := 1, nz := 1, nhalo := 0 } }

/-- A 2×1×1 domain with no halo (sites (1,1,1), (2,1,1) have flat
indices 0, 1). -/
def env0b : Env := { exEnv with dom := { nx := 2, ny := 1, nz := 1, nhalo := 0 } }

/-- A second particle at the same centre as the base one (overlap). -/
def cBsame : Colloid := { exColloidBase with id := 2 }

/-- A second particle centred on the next site along x. -/
def cB2 : Colloid := { exColloidBase with id := 2, r := ⟨2, 1, 1⟩ }

/-- A neutral store: all sites fluid and unowned. -/
def c7Store : Store :=
  { status := fun _ => SiteStatus.FLUID
    collMap := fun _ => none
    collOld := fun _ => none
    f := fun _ _ _ => 0
    phiOp := fun _ _ => 0
    colloids := fun _ => exColloidBase }

/-- A store whose every site is a `BOUNDARY` wall site. -/
def c9Store : Store :=
  { status := fun _ => SiteStatus.BOUNDARY
    collMap := fun _ => none
    collOld := fun _ => none
    f := fun _ _ _ => 0
    phiOp := fun _ _ => 0
    colloids := fun _ => exColloidBase }

theorem claimedIndices_env0_base : claimedIndices env0 exColloidBase = [0] := by
  have h85 : Int.ceil ((8 : ℚ) / 5) = 2 := by norm_num [Int.ceil_eq_iff]
  have hbox : COLL_update_map_box env0 exColloidBase = ⟨1, 1, 1, 1, 1, 1⟩ := by
    unfold COLL_update_map_box colloidLocalPosition imax imin
    norm_num [env0, exEnv, exColloidBase, SiteBox.mk.injEq, h85]
  unfold claimedIndices
  rw [hbox, show SiteBox.sites ⟨1, 1, 1, 1, 1, 1⟩ = [⟨1, 1, 1⟩] from by decide]
  norm_num [mapInsideTest, colloidLocalPosition, COLL_fvector_separation, sepComponent,
    COLL_fcoords_from_ijk, UTIL_dot_product, get_site_index, env0, exEnv, exColloidBase,
    List.filter_cons]

theorem claimedIndices_env0_cBsame : claimedIndices env0 cBsame = [0] := by
  have h85 : Int.ceil ((8 : ℚ) / 5) = 2 := by norm_num [Int.ceil_eq_iff]
  have hbox : COLL_update_map_box env0 cBsame = ⟨1, 1, 1, 1, 1, 1⟩ := by
    unfold COLL_update_map_box colloidLocalPosition imax imin
    norm_num [env0, exEnv, cBsame, exColloidBase, SiteBox.mk.injEq, h85]
  unfold claimedIndices
  rw [hbox, show SiteBox.sites ⟨1, 1, 1, 1, 1, 1⟩ = [⟨1, 1, 1⟩] from by decide]
  norm_num [mapInsideTest, colloidLocalPosition, COLL_fvector_separation, sepComponent,
    COLL_fcoords_from_ijk, UTIL_dot_product, get_site_index, env0, exEnv, cBsame,
    exColloidBase, List.filter_cons]

theorem claimedIndices_env0b_base : claimedIndices env0b exColloidBase = [0] := by
  have h85 : Int.ceil ((8 : ℚ) / 5) = 2 := by norm_num [Int.ceil_eq_iff]
  have hbox : COLL_update_map_box env0b exColloidBase = ⟨1, 2, 1, 1, 1, 1⟩ := by
    unfold COLL_update_map_box colloidLocalPosition imax imin
    norm_num [env0b, exEnv, exColloidBase, SiteBox.mk.injEq, h85]
  unfold claimedIndices
  rw [hbox, exBox_sites]
  norm_num [mapInsideTest, colloidLocalPosition, COLL_fvector_separation, sepComponent,
    COLL_fcoords_from_ijk, UTIL_dot_product, get_site_index, env0b, exEnv, exColloidBase,
    List.filter_cons]

theorem claimedIndices_env0b_cB2 : claimedIndices env0b cB2 = [1] := by
  have h85 : Int.ceil ((8 : ℚ) / 5) = 2 := by norm_num [Int.ceil_eq_iff]
  have h135 : Int.ceil ((13 : ℚ) / 5) = 3 := by norm_num [Int.ceil_eq_iff]
  have hbox : COLL_update_map_box env0b cB2 = ⟨1, 2, 1, 1, 1, 1⟩ := by
    unfold COLL_update_map_box colloidLocalPosition imax imin
    norm_num [env0b, exEnv, cB2, exColloidBase, SiteBox.mk.injEq, h85, h135]
  unfold claimedIndices
  rw [hbox, exBox_sites]
  norm_num [mapInsideTest, colloidLocalPosition, COLL_fvector_separation, sepComponent,
    COLL_fcoords_from_ijk, UTIL_dot_product, get_site_index, env0b, exEnv, cB2,
    exColloidBase, List.filter_cons]

/-- Claim C7 counterexample: two distinct particles both claim site 0
in the same snapshot; no assertion stops the second claim, which
silently overwrites the first — the final owner is the later particle
in iteration order. -/
theorem claim7_counterexample :
    (0 : ℤ) ∈ claimedIndices env0 exColloidBase
    ∧ (0 : ℤ) ∈ claimedIndices env0 cBsame
    ∧ exColloidBase.id ≠ cBsame.id
    ∧ (COLL_update_map env0 c7Store [exColloidBase, cBsame]).collMap 0 = some cBsame.id := by
  have hmemB : (0 : ℤ) ∈ claimedIndices env0 cBsame := by
    rw [claimedIndices_env0_cBsame]
    exact List.mem_singleton.mpr rfl
  refine ⟨?_, hmemB, by decide, ?_⟩
  · rw [claimedIndices_env0_base]
    exact List.mem_singleton.mpr rfl
  · unfold COLL_update_map
    simp only [List.foldl_cons, List.foldl_nil]
    rw [update_map_colloid_collMap, if_pos hmemB]

/-- Witness for claim C7's amended theorem: two disjoint particles; the
unique claimant of site 0 ends up owning it. -/
theorem claim7_witness :
    exColloidBase ∈ [exColloidBase, cB2]
    ∧ (0 : ℤ) ∈ claimedIndices env0b exColloidBase
    ∧ (∀ c2 ∈ [exColloidBase, cB2],
        (0 : ℤ) ∈ claimedIndices env0b c2 → c2.id = exColloidBase.id)
    ∧ (COLL_update_map env0b c7Store [exColloidBase, cB2]).collMap 0
        = some exColloidBase.id := by
  have h1 : exColloidBase ∈ [exColloidBase, cB2] := List.mem_cons_self _ _
  have h2 : (0 : ℤ) ∈ claimedIndices env0b exColloidBase := by
    rw [claimedIndices_env0b_base]
    exact List.mem_singleton.mpr rfl
  have h3 : ∀ c2 ∈ [exColloidBase, cB2],
      (0 : ℤ) ∈ claimedIndices env0b c2 → c2.id = exColloidBase.id := by
    intro c2 hc2 hcl
    rcases List.mem_cons.mp hc2 with rfl | hc2
    · rfl
    · rcases List.mem_cons.mp hc2 with rfl | hc2
      · rw [claimedIndices_env0b_cB2] at hcl
        exact absurd hcl (by decide)
      · exact absurd hc2 (List.not_mem_nil c2)
  exact ⟨h1, h2, h3, claim7_unique_claimant_owns env0b c7Store _ _ 0 h1 h2 h3⟩

/-- Claim C9 counterexample: a `BOUNDARY` wall site covered by a
particle is rewritten to `COLLOID` by the occupancy rebuild, so the
wall classification is not preserved. -/
theorem claim9_counterexample :
    c9Store.status 0 = SiteStatus.BOUNDARY
    ∧ (COLL_update_map env0 c9Store [exColloidBase]).status 0 = SiteStatus.COLLOID := by
  refine ⟨rfl, ?_⟩
  have hmem : (0 : ℤ) ∈ claimedIndices env0 exColloidBase := by
    rw [claimedIndices_env0_base]
    exact List.mem_singleton.mpr rfl
  unfold COLL_update_map
  simp only [List.foldl_cons, List.foldl_nil]
  rw [update_map_colloid_status, if_pos hmem]

/-- Witness for claim C9's amended theorem: an unclaimed wall site
survives the full occupancy rebuild. -/
theorem claim9_witness :
    c9Store.status 0 = SiteStatus.BOUNDARY
    ∧ (∀ c2 ∈ [cB2], (0 : ℤ) ∉ claimedIndices env0b c2)
    ∧ (COLL_update_map env0b c9Store [cB2]).status 0 = SiteStatus.BOUNDARY := by
  have hnc : ∀ c2 ∈ [cB2], (0 : ℤ) ∉ claimedIndices env0b c2 := by
    intro c2 hc2
    rcases List.mem_cons.mp hc2 with rfl | hc2
    · rw [claimedIndices_env0b_cB2]
      decide
    · exact absurd hc2 (List.not_mem_nil c2)
  exact ⟨rfl, hnc,
    (claim9_reset_only_colloid_and_wall_preserved_if_unclaimed env0b c9Store [cB2] 0).2
      rfl hnc⟩

/-- The particle of the bounding-box counterexample: centred at
x = 3/2 with radius 6/5, so its box reaches into the halo. -/
def c3Colloid : Colloid := { exColloidBase with r := ⟨3 / 2, 1, 1⟩, a0 := 6 / 5 }

/-- Claim C3 counterexample: at this particle the rebuild box is
clipped at 1 while the occupancy-rebuild box extends to 0 — the two
traversal ranges differ. -/
theorem claim3_counterexample :
    (COLL_reconstruct_box exEnv c3Colloid).imin = 1
    ∧ (COLL_update_map_box exEnv c3Colloid).imin = 0
    ∧ COLL_reconstruct_box exEnv c3Colloid ≠ COLL_update_map_box exEnv c3Colloid := by
  have h1 : (COLL_reconstruct_box exEnv c3Colloid).imin = 1 := by
    unfold COLL_reconstruct_box colloidLocalPosition imax
    norm_num [exEnv, c3Colloid, exColloidBase]
  have h2 : (COLL_update_map_box exEnv c3Colloid).imin = 0 := by
    unfold COLL_update_map_box colloidLocalPosition imax
    norm_num [exEnv, c3Colloid, exColloidBase]
  refine ⟨h1, h2, fun h => ?_⟩
  rw [h, h2] at h1
  exact absurd h1 (by decide)

/-- Witness for claim C3's amended theorem at the concrete
configuration. -/
theorem claim3_witness :
    (0 : ℤ) ≤ exEnv.dom.nhalo
    ∧ ((COLL_reconstruct_box exEnv exColloidBase).imin
          = imax 1 (COLL_update_map_box exEnv exColloidBase).imin
      ∧ (COLL_reconstruct_box exEnv exColloidBase).imax
          = imin exEnv.dom.nx (COLL_update_map_box exEnv exColloidBase).imax
      ∧ (COLL_reconstruct_box exEnv exColloidBase).jmin
          = imax 1 (COLL_update_map_box exEnv exColloidBase).jmin
      ∧ (COLL_reconstruct_box exEnv exColloidBase).jmax
          = imin exEnv.dom.ny (COLL_update_map_box exEnv exColloidBase).jmax
      ∧ (COLL_reconstruct_box exEnv exColloidBase).kmin
          = imax 1 (COLL_update_map_box exEnv exColloidBase).kmin
      ∧ (COLL_reconstruct_box exEnv exColloidBase).kmax
          = imin exEnv.dom.nz (COLL_update_map_box exEnv exColloidBase).kmax) :=
  ⟨by decide, claim3_reconstruct_box_is_core_clip exEnv exColloidBase (by decide)⟩

/-- Witness for claim C8's theorem at a concrete halo site. -/
theorem claim8_witness :
    isHaloSite exEnv 0 1 1 = true
    ∧ ((transitionSite exEnv c1Store 0 1 1).f = c1Store.f
      ∧ (transitionSite exEnv c1Store 0 1 1).phiOp = c1Store.phiOp
      ∧ (transitionSite exEnv c1Store 0 1 1).status = c1Store.status
      ∧ (transitionSite exEnv c1Store 0 1 1).collMap = c1Store.collMap
      ∧ (transitionSite exEnv c1Store 0 1 1).collOld = c1Store.collOld
      ∧ (∀ n : ℕ,
          ((transitionSite exEnv c1Store 0 1 1).colloids n).deltam
              = (c1Store.colloids n).deltam
          ∧ ((transitionSite exEnv c1Store 0 1 1).colloids n).deltaphi
              = (c1Store.colloids n).deltaphi
          ∧ ((transitionSite exEnv c1Store 0 1 1).colloids n).f0
              = (c1Store.colloids n).f0
          ∧ ((transitionSite exEnv c1Store 0 1 1).colloids n).t0
              = (c1Store.colloids n).t0)
      ∧ (∀ cid : ℕ,
          (c1Store.collOld (get_site_index exEnv.dom 0 1 1) = none
              ∧ c1Store.collMap (get_site_index exEnv.dom 0 1 1) = some cid)
            ∨ (c1Store.collOld (get_site_index exEnv.dom 0 1 1) = some cid
              ∧ c1Store.collMap (get_site_index exEnv.dom 0 1 1) = none) →
          ((transitionSite exEnv c1Store 0 1 1).colloids cid).rebuild = true)) :=
  ⟨by decide, claim8_halo_transition_only_rebuild exEnv c1Store 0 1 1 (by decide)⟩

/-- Witness for claim C6's theorem on a concrete successful rebuild. -/
theorem claim6_witness :
    ∃ (L : List COLL_Link) (st2 : Store) (c2 : Colloid),
      COLL_update_links_one exEnv c4Store { c4Colloid with rebuild := true } []
          = Except.ok (L, st2, c2)
      ∧ c2.sumw = fluidWeightSum exEnv L
      ∧ c2.cbar = fluidCbarSum exEnv L
      ∧ c2.rxcbar = fluidRxcbarSum exEnv L := by
  have h := update_links_one_rebuild_nowall_eq exEnv c4Store
    { c4Colloid with rebuild := true } [] rfl rfl
  exact ⟨_, _, _, h,
    claim6_moment_sums exEnv c4Store { c4Colloid with rebuild := true } [] _ _ _ h⟩
